import Mathlib

/-!
socklib: address model, socket handle life cycle and hook chains.

A shallow embedding of the address conversion routines and of the socket
handle operations of `socks.cpp` (the `socket_base` class) and of
`src/socks.cpp` (the `socket` class), with the properties proved about them.

Conventions of the embedding.

* A byte is a natural number; a byte buffer and a `std::string` are lists of
  bytes (`Bytes`).  A `std::string` may hold zero bytes; `c_str` is the view a
  C string reader has of it.
* The native address `sockaddr_storage` is its family field together with the
  126 bytes that follow it (Linux layout: `sa_family_t` is 2 bytes, the whole
  storage 128).  The three views `sockaddr_in`, `sockaddr_in6` and
  `sockaddr_un` overlay those bytes at the offsets named below.
* Operating-system and C-library calls are not executed: their results are
  arguments of the embedded function, and the calls a function issues are
  returned as a trace.
-/

namespace sks

/-! ## Bytes and memory -/

/-- A byte buffer, also the contents of a `std::string`. -/
abbrev Bytes := List Nat

/-- The bytes of a text literal. -/
def ascii (s : String) : Bytes := s.toList.map Char.toNat

/-- A buffer of `n` zero bytes (`memset(p, 0, n)`). -/
def zeros (n : Nat) : Bytes := List.replicate n 0

/-- The effect of `memcpy(dst + off, src, n)` on `dst`. -/
def memcpy (dst : Bytes) (off : Nat) (src : Bytes) (n : Nat) : Bytes :=
  dst.take off ++ src.take n ++ dst.drop (off + n)

/-- The `n` bytes of `m` starting at offset `off`. -/
def readAt (m : Bytes) (off n : Nat) : Bytes := (m.drop off).take n

/-- The bytes a C string reader sees: everything before the first zero byte. -/
def c_str (s : Bytes) : Bytes := s.takeWhile (fun b => b != 0)

/-- The two bytes of `htons(p)` as they lie in memory: high byte first. -/
def htons (p : Nat) : Bytes := [p / 256 % 256, p % 256]

/-- The value `ntohs` reads from two bytes in memory. -/
def ntohs (b : Bytes) : Nat := b.getD 0 0 * 256 + b.getD 1 0

/-! ## Constants of the platform headers (Linux values) -/

/-- The enumerator `unix` of `domain` (`AF_UNIX`). -/
def unix : Nat := 1
/-- The enumerator `ipv4` of `domain` (`AF_INET`). -/
def ipv4 : Nat := 2
/-- The enumerator `ipv6` of `domain` (`AF_INET6`). -/
def ipv6 : Nat := 10

/-- Size of `sa_family_t`, the header of every native address. -/
def sizeof_sa_family_t : Nat := 2
/-- Size of `sockaddr_storage`. -/
def sizeof_sockaddr_storage : Nat := 128
/-- Size of `sockaddr_in`. -/
def sizeof_sockaddr_in : Nat := 16
/-- Size of `sockaddr_in6`. -/
def sizeof_sockaddr_in6 : Nat := 28
/-- Size of the field `sun_path` of `sockaddr_un`. -/
def sizeof_sun_path : Nat := 108
/-- Size of `sockaddr_un`. -/
def sizeof_sockaddr_un : Nat := sizeof_sa_family_t + sizeof_sun_path
/-- Size of `in_addr`. -/
def sizeof_in_addr : Nat := 4
/-- Size of `in6_addr`. -/
def sizeof_in6_addr : Nat := 16
/-- Size of the member `addr` of `sockaddress`. -/
def sizeof_addr : Nat := 16

/-- Offset of `sin_port` behind the family field. -/
def off_sin_port : Nat := 0
/-- Offset of `sin_addr` behind the family field. -/
def off_sin_addr : Nat := 2
/-- Offset of `sin6_port` behind the family field. -/
def off_sin6_port : Nat := 0
/-- Offset of `sin6_addr` behind the family field (after port and flowinfo). -/
def off_sin6_addr : Nat := 6
/-- Offset of `sun_path` behind the family field. -/
def off_sun_path : Nat := 0

/-- The bytes of `INADDR_ANY`. -/
def INADDR_ANY : Bytes := zeros 4
/-- The bytes of `htonl(INADDR_LOOPBACK)`: 127.0.0.1. -/
def INADDR_LOOPBACK_n : Bytes := [127, 0, 0, 1]
/-- The bytes of `in6addr_any`. -/
def in6addr_any : Bytes := zeros 16
/-- The bytes of `in6addr_loopback`: fifteen zero bytes and a one. -/
def in6addr_loopback : Bytes := zeros 15 ++ [1]

/-! ## The address model -/

/-- Modelled from the spec: the struct `sockaddress` is declared in `socks.hpp`,
which is absent; its members are those `socks.cpp` uses: the family `d`, the
binary host `addr` (16 bytes), the text `addrstring` and the 16-bit `port`. -/
structure sockaddress where
  d : Nat
  addr : Bytes
  addrstring : Bytes
  port : Nat
deriving DecidableEq, Repr

/-- The constructor `sockaddress::sockaddress()`: it zeroes `addr`; the text is
an empty string, and the members it leaves unset are taken as zero. -/
def sockaddress.new : sockaddress :=
  { d := 0, addr := zeros sizeof_addr, addrstring := [], port := 0 }

/-- The native address: the family field and the bytes behind it. -/
structure sockaddr_storage where
  ss_family : Nat
  ss_data : Bytes
deriving DecidableEq, Repr

/-- The field `sun_path` of the `sockaddr_un` view. -/
def sun_path (saddr : sockaddr_storage) : Bytes :=
  readAt saddr.ss_data off_sun_path sizeof_sun_path

/-- The loop of `satosa` that tests whether the binary host is all zero: it
looks at the first `min(sizeof(s.addr), n)` bytes of `addr`. -/
def addrzero (addr : Bytes) (n : Nat) : Bool :=
  (addr.take (min sizeof_addr n)).all (fun b => b == 0)

/-- The effect of `inet_pton(af, src, dst + off)` on the buffer: a parsed
value is stored, and a text that does not parse leaves the buffer as it is.
The parser itself, `pton`, is the C library's. -/
def inet_pton (pton : Nat → Bytes → Option Bytes) (af : Nat) (src : Bytes)
    (dst : Bytes) (off n : Nat) : Bytes :=
  match pton af src with
  | some v => memcpy dst off v n
  | none => dst

/-- Converting sockaddress to sockaddr:
`sockaddr_storage satosa(const sockaddress& s, socklen_t* saddrlen)`.
The second component is the value of `*saddrlen` afterwards, `saddrlen` being
its value before the call. -/
def satosa_to (pton : Nat → Bytes → Option Bytes) (s : sockaddress) (saddrlen : Nat) :
    sockaddr_storage × Nat :=
  let data := zeros (sizeof_sockaddr_storage - sizeof_sa_family_t)
  if s.d = ipv4 then
    let data := memcpy data off_sin_addr s.addr sizeof_in_addr
    let data :=
      if addrzero s.addr sizeof_in_addr then
        if s.addrstring.length > 0 then
          inet_pton pton s.d (c_str s.addrstring) data off_sin_addr sizeof_in_addr
        else memcpy data off_sin_addr INADDR_ANY sizeof_in_addr
      else data
    let data := memcpy data off_sin_port (htons s.port) 2
    ({ ss_family := s.d, ss_data := data }, sizeof_sockaddr_in)
  else if s.d = ipv6 then
    let data := memcpy data off_sin6_addr s.addr sizeof_in6_addr
    let data :=
      if addrzero s.addr sizeof_in6_addr then
        if s.addrstring.length > 0 then
          inet_pton pton s.d (c_str s.addrstring) data off_sin6_addr sizeof_in6_addr
        else memcpy data off_sin6_addr in6addr_any sizeof_in6_addr
      else data
    let data := memcpy data off_sin6_port (htons s.port) 2
    ({ ss_family := s.d, ss_data := data }, sizeof_sockaddr_in6)
  else if s.d = unix then
    let data := data.set off_sun_path 0
    let n := min (sizeof_sun_path - 1) s.addrstring.length
    let data := memcpy data off_sun_path s.addrstring n
    let data := data.set (off_sun_path + n) 0
    ({ ss_family := s.d, ss_data := data }, sizeof_sockaddr_un)
  else
    ({ ss_family := s.d, ss_data := data }, saddrlen)

/-- The call `inet_ntop(af, src, buf, 46)`: the text form of the first 4 bytes
for `AF_INET`, of the 16 bytes for `AF_INET6`, and a null pointer for every
other family.  The formatter `ntop` is the C library's. -/
def inet_ntop (ntop : Nat → Bytes → Bytes) (af : Nat) (src : Bytes) : Option Bytes :=
  if af = ipv4 then some (ntop af (src.take sizeof_in_addr))
  else if af = ipv6 then some (ntop af (src.take sizeof_in6_addr))
  else none

/-- Converting sockaddr to sockaddress:
`sockaddress satosa(const sockaddr_storage* saddr, size_t slen)`.
Reads stay inside the storage as long as `slen` does not exceed its size and a
path has its terminator inside it. -/
def satosa_from (ntop : Nat → Bytes → Bytes) (saddr : sockaddr_storage) (slen : Nat) :
    sockaddress :=
  let s : sockaddress := { sockaddress.new with d := saddr.ss_family }
  let s : sockaddress :=
    if s.d = ipv4 then
      { s with
        addr := memcpy s.addr 0 (readAt saddr.ss_data off_sin_addr sizeof_in_addr) sizeof_in_addr
        port := ntohs (readAt saddr.ss_data off_sin_port 2) }
    else if s.d = ipv6 then
      { s with
        addr := memcpy s.addr 0 (readAt saddr.ss_data off_sin6_addr sizeof_in6_addr)
          sizeof_in6_addr
        port := ntohs (readAt saddr.ss_data off_sin6_port 2) }
    else if s.d = unix then
      let s : sockaddress :=
        if slen > sizeof_sa_family_t then
          if saddr.ss_data.getD off_sun_path 0 = 0 then
            let n := slen - sizeof_sa_family_t
            { s with addrstring := readAt saddr.ss_data off_sun_path n }
          else
            { s with addrstring := c_str (saddr.ss_data.drop off_sun_path) }
        else s
      { s with addr := zeros sizeof_addr, port := 0 }
    else s
  match inet_ntop ntop s.d s.addr with
  | some text => { s with addrstring := c_str text }
  | none => s

/-- Change any addresses to a loopback equivalent: `void anytoloop(sockaddr_storage&)`. -/
def anytoloop (saddr : sockaddr_storage) : sockaddr_storage :=
  if saddr.ss_family = ipv4 then
    if readAt saddr.ss_data off_sin_addr sizeof_in_addr = INADDR_ANY then
      { saddr with
        ss_data := memcpy saddr.ss_data off_sin_addr INADDR_LOOPBACK_n sizeof_in_addr }
    else saddr
  else if saddr.ss_family = ipv6 then
    if readAt saddr.ss_data off_sin6_addr sizeof_in6_addr = in6addr_any then
      { saddr with
        ss_data := memcpy saddr.ss_data off_sin6_addr in6addr_loopback sizeof_in6_addr }
    else saddr
  else saddr

/-- The function `std::string to_string(sockaddress sa)`. -/
def to_string (sa : sockaddress) : Bytes :=
  sa.addrstring ++ (if sa.port != 0 then ascii ":" ++ ascii (toString sa.port) else [])

/-! ## Conditions, packets and hooks -/

/-- The enumeration `errortype`. -/
inductive errortype where
  | BSD
  | CLASS
  | USER
deriving DecidableEq, Repr

/-- The struct `serror`: a category and a code. -/
structure serror where
  type : errortype
  erno : Int
deriving DecidableEq, Repr

/-- The declarations of `socks.hpp` that `socks.cpp` relies on and that are
absent: the values of the enumerators of the library-defined and of the
user-hook conditions, and the default argument `index` of `setpre`, `setpost`,
`pre` and `post`. -/
structure socks_hpp where
  NOBYTES : Int
  INVALID : Int
  CLOSED : Int
  UNBOUND : Int
  OPTTYPE : Int
  NOLISTEN : Int
  BADPSR : Int
  BADPRR : Int
  index : Nat

/-- The value `EFAULT` of `errno.h`. -/
def EFAULT : Int := 14

/-- The struct `packet`: a payload and the peer address. -/
structure packet where
  data : Bytes
  rem : sockaddress
deriving DecidableEq, Repr

/-- A `std::function<int(packet&)>`: a null function, or a function that
returns a code and leaves the packet it was handed in a new state. -/
abbrev hook := Option (packet → Int × packet)

/-- A `std::map<size_t, V>`: its entries in ascending order of their keys. -/
abbrev stdmap (V : Type) := List (Nat × V)

/-- The assignment `m[k] = v` on a `std::map`: the entry of key `k` is replaced,
or a new entry is put at its place in the order of the keys. -/
def stdmap.assign {V : Type} : stdmap V → Nat → V → stdmap V
  | [], k, v => [(k, v)]
  | (k', v') :: rest, k, v =>
    if k < k' then (k, v) :: (k', v') :: rest
    else if k = k' then (k, v) :: rest
    else (k', v') :: stdmap.assign rest k v

/-- The value a `std::map` holds for a key, if it has an entry for it. -/
def stdmap.find {V : Type} (m : stdmap V) (k : Nat) : Option V :=
  (List.find? (fun e => e.1 == k) m).map Prod.snd

/-- The read `m[k]` on a `std::map`: the value of key `k`, after an entry with
the default value `dflt` was added when the map had none for `k`. -/
def stdmap.index {V : Type} (m : stdmap V) (k : Nat) (dflt : V) : V × stdmap V :=
  match stdmap.find m k with
  | some v => (v, m)
  | none => (dflt, stdmap.assign m k dflt)

/-! ## Operating-system calls -/

/-- The operating-system calls the embedded functions issue, with the
arguments that matter here. -/
inductive oscall where
  | bind (fd : Int) (addr : sockaddr_storage) (len : Nat)
  | listen (fd : Int) (backlog : Int)
  | accept (fd : Int)
  | getsockname (fd : Int)
  | getpeername (fd : Int)
  | getsockopt_type (fd : Int)
  | socket (d : Nat) (t : Nat) (p : Int)
  | connect (fd : Int) (addr : sockaddr_storage) (len : Nat)
  | recvfrom (fd : Int) (n : Nat) (flags : Int)
  | sendto (fd : Int) (buf : Bytes) (len : Nat) (flags : Int) (dest : Option sockaddr_storage)
      (destlen : Nat)
  | send (fd : Int) (buf : Bytes) (len : Nat) (flags : Nat)
  | shutdown (fd : Int) (how : Nat)
  | close (fd : Int)
  | unlink (path : Bytes)
  | poll (fds : List (Int × Nat)) (timeout : Int)
  | recv (fd : Int) (n : Nat) (flags : Nat)
  | setsockopt (fd : Int) (level : Int) (optname : Int) (value : Int)
  | getsockopt (fd : Int) (level : Int) (optname : Int)
deriving DecidableEq, Repr

/-- The outcome of a name query (`getsockname`, `getpeername`): the address
and length the system wrote, or nothing when the call returned -1. -/
abbrev os_name := Option (sockaddr_storage × Nat)

/-- What the system answers to the calls of the constructor
`socket_base(int sockfd)`: the socket type (when `getsockopt` returned 0) and
the two name queries. -/
structure os_wrap where
  so_type : Option Nat
  sockname : os_name
  peername : os_name

/-! ## The class `socket_base` (socks.cpp) -/

/-- The enumerator `tcp` of `protocol` (`SOCK_STREAM`). -/
def tcp : Nat := 1
/-- The enumerator `udp` of `protocol` (`SOCK_DGRAM`). -/
def udp : Nat := 2
/-- The enumerator `raw` of `protocol` (`SOCK_RAW`). -/
def raw : Nat := 3
/-- The enumerator `rdm` of `protocol` (`SOCK_RDM`). -/
def rdm : Nat := 4
/-- The enumerator `seq` of `protocol` (`SOCK_SEQPACKET`). -/
def seq : Nat := 5

/-- The function `bool connectionless(protocol p)`. -/
def connectionless (p : Nat) : Bool :=
  if p = tcp ∨ p = seq then false else true

/-- The data members of `socket_base`. -/
structure socket_base where
  m_sockid : Int
  m_domain : Nat
  m_protocol : Nat
  m_valid : Bool
  m_listening : Bool
  m_bound : Bool
  m_loc_addr : sockaddress
  m_rem_addr : sockaddress
  m_presend : stdmap hook
  m_postrecv : stdmap hook
  m_rxto : Int
  m_txto : Int

/-- Modelled from the spec: the state of the members of a `socket_base` before
a constructor body runs; their default initialisers are in `socks.hpp`, which is
absent.  The flags are false (a handle is not valid for I/O, not bound and not
listening until an operation says so) and the hook maps are empty. -/
def socket_base.members : socket_base :=
  { m_sockid := -1, m_domain := 0, m_protocol := 0, m_valid := false, m_listening := false,
    m_bound := false, m_loc_addr := sockaddress.new, m_rem_addr := sockaddress.new,
    m_presend := [], m_postrecv := [], m_rxto := 0, m_txto := 0 }

/-- The member `setlocinfo`: the native address it returns and the handle afterwards. -/
def socket_base.setlocinfo (ntop : Nat → Bytes → Bytes) (s : socket_base) (os : os_name) :
    sockaddr_storage × socket_base :=
  match os with
  | none =>
    ({ ss_family := 0, ss_data := zeros (sizeof_sockaddr_storage - sizeof_sa_family_t) }, s)
  | some (saddr, slen) => (saddr, { s with m_loc_addr := satosa_from ntop saddr slen })

/-- The member `setreminfo`: the native address it returns and the handle afterwards. -/
def socket_base.setreminfo (ntop : Nat → Bytes → Bytes) (s : socket_base) (os : os_name) :
    sockaddr_storage × socket_base :=
  match os with
  | none =>
    ({ ss_family := 0, ss_data := zeros (sizeof_sockaddr_storage - sizeof_sa_family_t) }, s)
  | some (saddr, slen) => (saddr, { s with m_rem_addr := satosa_from ntop saddr slen })

/-- The constructor `socket_base::socket_base(int sockfd)`, with the calls it issues. -/
def socket_base.wrap (ntop : Nat → Bytes → Bytes) (sockfd : Int) (os : os_wrap) :
    socket_base × List oscall :=
  let s : socket_base := { socket_base.members with m_sockid := sockfd }
  let s : socket_base :=
    match os.so_type with
    | some t => { s with m_protocol := t }
    | none => s
  let r := socket_base.setlocinfo ntop s os.sockname
  let r2 := socket_base.setreminfo ntop r.2 os.peername
  ({ r2.2 with m_domain := r.1.ss_family, m_valid := true },
    [oscall.getsockopt_type sockfd, oscall.getsockname sockfd, oscall.getpeername sockfd])

/-- The member `setpre(f, index)`. -/
def socket_base.setpre (s : socket_base) (f : hook) (index : Nat) : socket_base :=
  { s with m_presend := stdmap.assign s.m_presend index f }

/-- The member `setpost(f, index)`. -/
def socket_base.setpost (s : socket_base) (f : hook) (index : Nat) : socket_base :=
  { s with m_postrecv := stdmap.assign s.m_postrecv index f }

/-- The member `pre(index)`: the function it returns and the handle afterwards
(reading `m_presend[index]` adds a null entry when there is none). -/
def socket_base.pre (s : socket_base) (index : Nat) : hook × socket_base :=
  let r := stdmap.index s.m_presend index none
  (r.1, { s with m_presend := r.2 })

/-- The member `post(index)`: the function it returns and the handle afterwards. -/
def socket_base.post (s : socket_base) (index : Nat) : hook × socket_base :=
  let r := stdmap.index s.m_postrecv index none
  (r.1, { s with m_postrecv := r.2 })

/-- The member `int socket_base::bind(sockaddress sa)`: the value returned, the
handle afterwards and the calls issued.  `os_bind` is the outcome of the system
call: `.error e` when it returned -1 with `errno = e`. -/
def socket_base.bind (pton : Nat → Bytes → Option Bytes) (ntop : Nat → Bytes → Bytes)
    (s : socket_base) (sa : sockaddress) (os_bind : Except Int Unit) (os_sockname : os_name) :
    Int × socket_base × List oscall :=
  let r := satosa_to pton sa sizeof_sockaddr_storage
  match os_bind with
  | .error e => (e, s, [oscall.bind s.m_sockid r.1 r.2])
  | .ok _ =>
    let s1 := (socket_base.setlocinfo ntop s os_sockname).2
    let s2 : socket_base :=
      if connectionless s1.m_protocol then { s1 with m_valid := true } else s1
    (0, { s2 with m_bound := true },
      [oscall.bind s.m_sockid r.1 r.2, oscall.getsockname s.m_sockid])

/-- The member `serror socket_base::listen(int backlog)`. -/
def socket_base.listen (H : socks_hpp) (s : socket_base) (backlog : Int)
    (os_listen : Except Int Unit) : serror × socket_base × List oscall :=
  if !s.m_bound then
    ({ type := errortype.CLASS, erno := H.UNBOUND }, s, [])
  else
    match os_listen with
    | .error e => ({ type := errortype.BSD, erno := e }, s, [oscall.listen s.m_sockid backlog])
    | .ok _ =>
      ({ type := errortype.CLASS, erno := 0 }, { s with m_valid := true, m_listening := true },
        [oscall.listen s.m_sockid backlog])

/-- The member `socket_base socket_base::accept()`: the handle returned, or the
condition carried by the `runtime_error` it throws; the handle afterwards; the
calls issued. -/
def socket_base.accept (H : socks_hpp) (ntop : Nat → Bytes → Bytes) (s : socket_base)
    (os_accept : Except Int Int) (os : os_wrap) :
    Except serror socket_base × socket_base × List oscall :=
  if s.m_listening == false then
    (.error { type := errortype.CLASS, erno := H.NOLISTEN }, s, [])
  else
    match os_accept with
    | .error e => (.error { type := errortype.BSD, erno := e }, s, [oscall.accept s.m_sockid])
    | .ok newsockid =>
      let w := socket_base.wrap ntop newsockid os
      let p := socket_base.pre s H.index
      let c := socket_base.setpre w.1 p.1 H.index
      let q := socket_base.post p.2 H.index
      let c := socket_base.setpost c q.1 H.index
      (.ok c, q.2, oscall.accept s.m_sockid :: w.2)

/-- The constructor `socket_base::socket_base(domain d, protocol t, int p)`:
the handle, or the condition carried by the `runtime_error` it throws when
`socket` returned -1; and the call issued. -/
def socket_base.create (d t : Nat) (p : Int) (os_socket : Except Int Int) :
    Except serror socket_base × List oscall :=
  match os_socket with
  | .error e => (.error { type := errortype.BSD, erno := e }, [oscall.socket d t p])
  | .ok fd =>
    (.ok { socket_base.members with m_domain := d, m_protocol := t, m_sockid := fd },
      [oscall.socket d t p])

/-- The member `int socket_base::connect(sockaddress sa)`. -/
def socket_base.connect (pton : Nat → Bytes → Option Bytes) (ntop : Nat → Bytes → Bytes)
    (s : socket_base) (sa : sockaddress) (os_connect : Except Int Unit)
    (os_sockname os_peername : os_name) : Int × socket_base × List oscall :=
  let r := satosa_to pton sa sizeof_sockaddr_storage
  let saddr := anytoloop r.1
  match os_connect with
  | .error e => (e, s, [oscall.connect s.m_sockid saddr r.2])
  | .ok _ =>
    let s1 := (socket_base.setlocinfo ntop s os_sockname).2
    let s2 := (socket_base.setreminfo ntop s1 os_peername).2
    (0, { s2 with m_valid := true },
      [oscall.connect s.m_sockid saddr r.2, oscall.getsockname s.m_sockid,
        oscall.getpeername s.m_sockid])

/-- What a run over hook entries leaves: the first non-zero code a hook
returned (if any), the packet afterwards, and the keys of the hooks that ran. -/
structure hooks_result where
  code : Option Int
  pkt : packet
  ran : List Nat
deriving DecidableEq, Repr

/-- The body shared by the two hook loops of `sendto` and `recvfrom`, over the
entries in the order the loop visits them: a null entry is skipped, a hook is
called on the packet, and the first non-zero return value ends the loop. -/
def run_hooks : List (Nat × hook) → packet → hooks_result
  | [], pkt => { code := none, pkt := pkt, ran := [] }
  | (_, none) :: rest, pkt => run_hooks rest pkt
  | (k, some f) :: rest, pkt =>
    if (f pkt).1 != 0 then { code := some (f pkt).1, pkt := (f pkt).2, ran := [k] }
    else
      let r := run_hooks rest (f pkt).2
      { r with ran := k :: r.ran }

/-- The effect of `v.resize(n)` on a byte vector. -/
def resize (v : Bytes) (n : Nat) : Bytes := (v ++ zeros n).take n

/-- What a data transfer call leaves: the condition returned, the handle
afterwards, the calls issued, the keys of the hooks that ran, and the packet
(for `recvfrom` the caller's packet, for `sendto` the local copy). -/
structure io_result where
  err : serror
  sock : socket_base
  calls : List oscall
  ran : List Nat
  pkt : packet

/-- The outcome of the system call `recvfrom`: `.error e` when it returned -1
with `errno = e`, else the bytes received (their number is the value returned)
with the address and the address length the system wrote. -/
abbrev os_recv := Except Int (Bytes × sockaddr_storage × Nat)

/-- The member `serror socket_base::recvfrom(packet& pkt, int flags, uint32_t n)`. -/
def socket_base.recvfrom (H : socks_hpp) (ntop : Nat → Bytes → Bytes) (s : socket_base)
    (pkt : packet) (flags : Int) (n : Nat) (os : os_recv) : io_result :=
  if s.m_valid == false || n == 0 then
    if s.m_valid == false then
      { err := { type := errortype.CLASS, erno := H.INVALID }, sock := s, calls := [], ran := [],
        pkt := pkt }
    else
      { err := { type := errortype.CLASS, erno := H.NOBYTES }, sock := s, calls := [], ran := [],
        pkt := pkt }
  else
    let buf := resize pkt.data n
    let call := oscall.recvfrom s.m_sockid n flags
    match os with
    | .error e =>
      { err := { type := errortype.BSD, erno := e },
        sock := if e = 104 then { s with m_valid := false } else s,
        calls := [call], ran := [], pkt := { pkt with data := buf } }
    | .ok (rx, saddr, slen) =>
      let buf := memcpy buf 0 rx rx.length
      if rx.length = 0 then
        { err := { type := errortype.CLASS, erno := H.CLOSED },
          sock := { s with m_valid := false },
          calls := [call], ran := [], pkt := { pkt with data := buf } }
      else
        let pkt1 : packet := { data := resize buf rx.length, rem := satosa_from ntop saddr slen }
        let r := run_hooks s.m_postrecv.reverse pkt1
        match r.code with
        | some c =>
          { err := { type := errortype.USER, erno := c }, sock := s, calls := [call],
            ran := r.ran, pkt := r.pkt }
        | none =>
          { err := { type := errortype.CLASS, erno := 0 }, sock := s, calls := [call],
            ran := r.ran, pkt := r.pkt }

/-- The member `serror socket_base::recvfrom(std::vector<uint8_t>& data, int
flags, uint32_t n)`: the result of the packet overload on a fresh packet, and
the caller's vector afterwards. -/
def socket_base.recvfrom_vector (H : socks_hpp) (ntop : Nat → Bytes → Bytes) (s : socket_base)
    (flags : Int) (n : Nat) (os : os_recv) : io_result × Bytes :=
  let r := socket_base.recvfrom H ntop s { data := [], rem := sockaddress.new } flags n os
  (r, r.pkt.data)

/-- The member `serror socket_base::sendto(packet pkt, int flags)`. `os_send` is
the outcome of the system call `sendto`: `.error e` when it returned -1 with
`errno = e`, else the number of bytes it reports as sent. -/
def socket_base.sendto (H : socks_hpp) (pton : Nat → Bytes → Option Bytes) (s : socket_base)
    (pkt : packet) (flags : Int) (os_send : Except Int Nat) : io_result :=
  if s.m_valid == false then
    { err := { type := errortype.CLASS, erno := H.INVALID }, sock := s, calls := [], ran := [],
      pkt := pkt }
  else
    let r := run_hooks s.m_presend pkt
    match r.code with
    | some c =>
      { err := { type := errortype.USER, erno := c }, sock := s, calls := [], ran := r.ran,
        pkt := r.pkt }
    | none =>
      let a := satosa_to pton r.pkt.rem sizeof_sockaddr_storage
      let saddr := anytoloop a.1
      let call :=
        if !connectionless s.m_protocol then
          oscall.sendto s.m_sockid r.pkt.data r.pkt.data.length flags none 0
        else
          oscall.sendto s.m_sockid r.pkt.data r.pkt.data.length flags (some saddr) a.2
      match os_send with
      | .error e =>
        { err := { type := errortype.BSD, erno := e }, sock := s, calls := [call], ran := r.ran,
          pkt := r.pkt }
      | .ok _ =>
        { err := { type := errortype.CLASS, erno := 0 }, sock := s, calls := [call],
          ran := r.ran, pkt := r.pkt }

/-- The member `serror socket_base::sendto(std::vector<uint8_t> data, int flags)`. -/
def socket_base.sendto_vector (H : socks_hpp) (pton : Nat → Bytes → Option Bytes)
    (s : socket_base) (data : Bytes) (flags : Int) (os_send : Except Int Nat) : io_result :=
  socket_base.sendto H pton s { data := data, rem := s.m_rem_addr } flags os_send

/-- The member `bool socket_base::valid()`. -/
def socket_base.valid (s : socket_base) : Bool := s.m_valid

/-! ## Sequences of calls on a `socket_base` -/

/-- A call on a handle together with what the system answers to it. -/
inductive op where
  | bind (sa : sockaddress) (os_bind : Except Int Unit) (os_sockname : os_name)
  | listen (backlog : Int) (os_listen : Except Int Unit)
  | connect (sa : sockaddress) (os_connect : Except Int Unit) (os_sockname os_peername : os_name)
  | sendto (pkt : packet) (flags : Int) (os_send : Except Int Nat)
  | recvfrom (pkt : packet) (flags : Int) (n : Nat) (os : os_recv)
  | setpre (f : hook) (index : Nat)
  | setpost (f : hook) (index : Nat)

/-- Which calls have succeeded so far on a handle. -/
structure history where
  bind_ok : Bool
  listen_ok : Bool
  connect_ok : Bool
deriving DecidableEq, Repr

/-- The history of a handle on which nothing was called yet. -/
def history.none : history := { bind_ok := false, listen_ok := false, connect_ok := false }

/-- One call: the handle afterwards, and the history with the call recorded
when it succeeded: the system call was issued (for `listen`, the handle was
bound) and did not return -1. -/
def op.apply (H : socks_hpp) (pton : Nat → Bytes → Option Bytes) (ntop : Nat → Bytes → Bytes)
    (s : socket_base) (h : history) : op → socket_base × history
  | .bind sa os_bind os_sockname =>
    let r := socket_base.bind pton ntop s sa os_bind os_sockname
    (r.2.1, if os_bind.toBool then { h with bind_ok := true } else h)
  | .listen backlog os_listen =>
    let r := socket_base.listen H s backlog os_listen
    (r.2.1, if s.m_bound && os_listen.toBool then { h with listen_ok := true } else h)
  | .connect sa os_connect os_sockname os_peername =>
    let r := socket_base.connect pton ntop s sa os_connect os_sockname os_peername
    (r.2.1, if os_connect.toBool then { h with connect_ok := true } else h)
  | .sendto pkt flags os_send => ((socket_base.sendto H pton s pkt flags os_send).sock, h)
  | .recvfrom pkt flags n os => ((socket_base.recvfrom H ntop s pkt flags n os).sock, h)
  | .setpre f index => (socket_base.setpre s f index, h)
  | .setpost f index => (socket_base.setpost s f index, h)

/-- A sequence of calls, from a handle and its history. -/
def run_ops (H : socks_hpp) (pton : Nat → Bytes → Option Bytes) (ntop : Nat → Bytes → Bytes) :
    socket_base × history → List op → socket_base × history
  | sh, [] => sh
  | sh, o :: rest => run_ops H pton ntop (op.apply H pton ntop sh.1 sh.2 o) rest

/-- What every reachable pair of a handle and its history satisfies. -/
def valid_inv (t : Nat) (s : socket_base) (h : history) : Prop :=
  s.m_protocol = t ∧
  (s.m_bound = true → h.bind_ok = true) ∧
  (h.listen_ok = true → h.bind_ok = true) ∧
  (s.m_valid = true →
    h.connect_ok = true ∨ h.listen_ok = true ∨ (connectionless t = true ∧ h.bind_ok = true))

/-- The hook map a handle has after the registrations `regs` (key and
function, in the order of the calls of `setpre` or `setpost`) on a map that was
empty. -/
def registered (regs : List (Nat × hook)) : stdmap hook :=
  regs.foldl (fun m r => stdmap.assign m r.1 r.2) []

/-- The non-null entries of a hook list, in its order. -/
def live : List (Nat × hook) → List (Nat × (packet → Int × packet))
  | [] => []
  | (_, none) :: rest => live rest
  | (k, some f) :: rest => (k, f) :: live rest

/-- The packet after the stages `fs` were applied one after the other, each to
the packet the one before it left. -/
def chain : List (Nat × (packet → Int × packet)) → packet → packet
  | [], p => p
  | (_, f) :: rest, p => chain rest (f p).2

/-- Every stage of `fs` returns 0 on the packet the stages before it left. -/
def passes : List (Nat × (packet → Int × packet)) → packet → Bool
  | [], _ => true
  | (_, f) :: rest, p => (f p).1 == 0 && passes rest (f p).2

/-! ## The class `socket` (src/socks.cpp) -/

/-- The data members of `socket`. -/
structure socket where
  m_validFD : Bool
  m_sockFD : Int
  m_domain : Nat
  m_type : Nat
  m_protocol : Int
deriving DecidableEq, Repr

/-- The member `void socket::bind(const sockaddr* address, socklen_t len)`: it
returns, or throws `sysErr` with the code given; the handle afterwards; the
calls issued. -/
def socket.bind (s : socket) (address : sockaddr_storage) (len : Nat)
    (os_bind : Except Int Unit) : Except Int Unit × socket × List oscall :=
  if address.ss_family != s.m_domain then
    (.error EFAULT, s, [])
  else
    match os_bind with
    | .error e => (.error e, s, [oscall.bind s.m_sockFD address len])
    | .ok _ => (.ok (), s, [oscall.bind s.m_sockFD address len])

/-- Modelled from the spec: the state of the members of a `socket` before a
constructor body runs; their default initialisers are in `socks.hpp`, which is
absent.  The handle owns nothing (a moved-from source is non-owning). -/
def socket.members : socket :=
  { m_validFD := false, m_sockFD := -1, m_domain := 0, m_type := 0, m_protocol := 0 }

/-- The move constructor `socket::socket(socket&& s)`: the new handle and the
source afterwards (the members are swapped). -/
def socket.move (s : socket) : socket × socket :=
  (s, socket.members)

/-- The move assignment `socket& socket::operator=(socket&& s)` on the handle
`d`: the handle `d` and the source `s` afterwards (the members are swapped). -/
def socket.move_assign (d s : socket) : socket × socket :=
  (s, d)

/-- The member `int socket::socketFD(bool takeOwnership)`: the descriptor and
the handle afterwards. -/
def socket.socketFD (s : socket) (takeOwnership : Bool) : Int × socket :=
  (s.m_sockFD, if takeOwnership then { s with m_validFD := false } else s)

/-- The value `SHUT_RDWR`. -/
def SHUT_RDWR : Nat := 2

/-- The value `MSG_NOSIGNAL`. -/
def MSG_NOSIGNAL : Nat := 16384

/-- The classes `address` and `unixAddress` of the headers, which are absent:
whether the local address the system reported (storage and length) is a named
unix address, and its name. -/
structure address_hpp where
  named : sockaddr_storage → Nat → Bool
  name : sockaddr_storage → Nat → Bytes

/-- The destructor `socket::~socket()` (POSIX): it completes (`.ok`) or an
exception `sysErr` with the code given leaves it (`.error`); and the calls
issued.  `os_sockname` is the outcome of `getsockname` in `localAddress()`:
`.error e` when it returned -1 with `errno = e`.  The values `shutdown`, `close`
and `unlink` return are not looked at. -/
def socket.destroy (A : address_hpp) (s : socket)
    (os_sockname : Except Int (sockaddr_storage × Nat)) : Except Int Unit × List oscall :=
  if s.m_validFD then
    match os_sockname with
    | .error e => (.error e, [oscall.getsockname s.m_sockFD])
    | .ok loc =>
      let calls :=
        [oscall.getsockname s.m_sockFD, oscall.shutdown s.m_sockFD SHUT_RDWR,
          oscall.close s.m_sockFD]
      if s.m_domain = unix then
        if A.named loc.1 loc.2 then (.ok (), calls ++ [oscall.unlink (c_str (A.name loc.1 loc.2))])
        else (.ok (), calls)
      else (.ok (), calls)
  else (.ok (), [])

/-- What a send loop leaves: how it ended (`none` when the answers of the
system ran out while the loop was still running, `.ok` when it returned,
`.error e` when it threw `sysErr(e)`), the calls issued, and the counter `sent`. -/
structure send_result where
  outcome : Option (Except Int Unit)
  calls : List oscall
  sent : Nat

/-- The loop `while (sent < len)` of the two members `socket::send`, from the
value `sent` on. `answers` are the outcomes of the successive system calls:
`.error e` for -1 with `errno = e`, else the count returned; `call off n` is the
system call on the `n` bytes at offset `off`. -/
def socket.send_loop (len : Nat) (call : Nat → Nat → oscall) :
    Nat → List (Except Int Nat) → send_result
  | sent, [] =>
    if sent < len then { outcome := none, calls := [], sent := sent }
    else { outcome := some (.ok ()), calls := [], sent := sent }
  | sent, a :: rest =>
    if sent < len then
      match a with
      | .error e => { outcome := some (.error e), calls := [call sent (len - sent)], sent := sent }
      | .ok r =>
        let res := socket.send_loop len call (sent + r) rest
        { res with calls := call sent (len - sent) :: res.calls }
    else { outcome := some (.ok ()), calls := [], sent := sent }

/-- The member `void socket::send(const uint8_t* data, size_t len, int flags)`,
`data` being the `len` bytes of the payload. -/
def socket.send (s : socket) (data : Bytes) (flags : Nat) (answers : List (Except Int Nat)) :
    send_result :=
  socket.send_loop data.length
    (fun off n => oscall.send s.m_sockFD (data.drop off) n (flags ||| MSG_NOSIGNAL)) 0 answers

/-- The member `void socket::send(const uint8_t* data, size_t len, const
sockaddr* toAddr, socklen_t addrLen, int flags)`. -/
def socket.send_to (s : socket) (data : Bytes) (toAddr : sockaddr_storage) (addrLen : Nat)
    (flags : Nat) (answers : List (Except Int Nat)) : send_result :=
  socket.send_loop data.length
    (fun off n => oscall.sendto s.m_sockFD (data.drop off) n (flags ||| MSG_NOSIGNAL)
      (some toAddr) addrLen) 0 answers

/-- The total of the counts in a list of outcomes of send calls. -/
def oksum : List (Except Int Nat) → Nat
  | [] => 0
  | .ok r :: rest => r + oksum rest
  | .error _ :: rest => oksum rest

/-- The contract of the system calls `send` and `sendto` for the answers a loop
over `len` bytes consumes from the counter `sent` on: a count returned is at
most the length the call was given. -/
def send_contract (len : Nat) : Nat → List (Except Int Nat) → Bool
  | _, [] => true
  | _, .error _ :: _ => true
  | sent, .ok r :: rest =>
    if sent < len then decide (r ≤ len - sent) && send_contract len (sent + r) rest else true

/-- The member `std::vector<uint8_t> socket::receive(size_t bufSize, int
flags)`: the vector returned, or the code of the `sysErr` thrown; and the call
issued. `os` is the outcome of `recv`: `.error e` for -1 with `errno = e`, else
the bytes the system has for the call, of which it writes the first `bufSize`
at most and returns the number written. -/
def socket.receive (s : socket) (bufSize : Nat) (flags : Nat) (os : Except Int Bytes) :
    Except Int Bytes × List oscall :=
  let call := oscall.recv s.m_sockFD bufSize (flags ||| MSG_NOSIGNAL)
  match os with
  | .error e => (.error e, [call])
  | .ok avail =>
    let rx := avail.take bufSize
    (.ok (resize (memcpy (zeros bufSize) 0 rx rx.length) rx.length), [call])

/-- The bytes the system took from the buffers of a sequence of send calls:
of each call that reported a count, that many bytes from the start of its
buffer. -/
def accepted : List oscall → List (Except Int Nat) → Bytes
  | oscall.send _ buf _ _ :: cs, .ok r :: rest => buf.take r ++ accepted cs rest
  | oscall.sendto _ buf _ _ _ _ :: cs, .ok r :: rest => buf.take r ++ accepted cs rest
  | _, _ => []

/-- The condition that every send call makes progress, for the answers a loop
over `len` bytes consumes from the counter `sent` on: an answer is a failure,
or a count of at least 1 and at most the length the call was given. -/
def send_progress (len : Nat) : Nat → List (Except Int Nat) → Bool
  | _, [] => true
  | _, .error _ :: _ => true
  | sent, .ok r :: rest =>
    if sent < len then
      decide (1 ≤ r) && decide (r ≤ len - sent) && send_progress len (sent + r) rest
    else true

/-- The value `POLLIN`. -/
def POLLIN : Nat := 1

/-- The value `POLLOUT`. -/
def POLLOUT : Nat := 4

/-- The second loop of `writeReadySockets` and `readReadySockets`: the sockets
whose returned events hold the flag, in the order of the input. `revents` are
the events the system returned, entry by entry (0 where it wrote nothing). -/
def select_ready (flag : Nat) : List socket → List Nat → List socket
  | [], _ => []
  | s :: rest, revents =>
    if revents.headD 0 &&& flag = flag then s :: select_ready flag rest revents.tail
    else select_ready flag rest revents.tail

/-- The conversion of an integer to the 32-bit `int` of a parameter: the value
modulo 2^32, in the range from -2^31 to 2^31 - 1. -/
def to_int (x : Int) : Int := (x + 2147483648) % 4294967296 - 2147483648

/-- The body shared by `writeReadySockets` and `readReadySockets`: the sockets
returned, or the code of the `sysErr` thrown; and the call issued. `timeout` is
`timeout.count()`, the 64-bit number of milliseconds, which is converted to the
`int` parameter of `poll`. `os` is the outcome of `poll`: `.error e` for -1
with `errno = e`, else the returned events. -/
def ready_sockets (flag : Nat) (sockets : List socket) (timeout : Int)
    (os : Except Int (List Nat)) : Except Int (List socket) × List oscall :=
  let call := oscall.poll (sockets.map (fun s => (s.m_sockFD, flag))) (to_int timeout)
  match os with
  | .error e => (.error e, [call])
  | .ok revents => (.ok (select_ready flag sockets revents), [call])

/-- The function `writeReadySockets(sockets, timeout)`. -/
def writeReadySockets (sockets : List socket) (timeout : Int) (os : Except Int (List Nat)) :
    Except Int (List socket) × List oscall :=
  ready_sockets POLLOUT sockets timeout os

/-- The function `readReadySockets(sockets, timeout)`. -/
def readReadySockets (sockets : List socket) (timeout : Int) (os : Except Int (List Nat)) :
    Except Int (List socket) × List oscall :=
  ready_sockets POLLIN sockets timeout os

/-! ## Messages and options of `socket_base` (socks.cpp) -/

/-- The function `std::string errorstr(int e)` (POSIX): the text the C library
gives for the code, `strerror` being the C library's. -/
def errorstr_int (strerror : Int → Bytes) (e : Int) : Bytes := c_str (strerror e)

/-- The function `std::string errorstr(serror e)`. -/
def errorstr (H : socks_hpp) (strerror : Int → Bytes) (e : serror) : Bytes :=
  if e.erno = 0 then errorstr_int strerror 0
  else
    match e.type with
    | errortype.BSD => errorstr_int strerror e.erno
    | errortype.USER =>
      if e.erno = H.BADPSR then ascii "Bad Pre-Send function return (!=0)"
      else if e.erno = H.BADPRR then ascii "Bad Post-Receive function return (!=0)"
      else ascii "Unknown user error"
    | errortype.CLASS =>
      if e.erno = H.NOBYTES then ascii "0 bytes returned"
      else if e.erno = H.INVALID then ascii "Socket is invalid"
      else if e.erno = H.CLOSED then ascii "Socket connection is closed"
      else if e.erno = H.UNBOUND then ascii "Socket is not bound"
      else if e.erno = H.OPTTYPE then ascii "Type does not match option's type"
      else if e.erno = H.NOLISTEN then ascii "Socket is not listening"
      else ascii "Unknown class error"

/-- The member `serror socket_base::setoption(option o, int value, int level)`
(POSIX): the condition returned, the handle afterwards and the call issued.
`os` is the value `setsockopt` returns. -/
def socket_base.setoption (s : socket_base) (o : Int) (value : Int) (level : Int) (os : Int) :
    serror × socket_base × List oscall :=
  ({ type := errortype.BSD, erno := os }, s, [oscall.setsockopt 0 level o value])

/-- The member `int socket_base::getoption(option o, serror* se, int level)`
(POSIX): the value returned, the condition written to `se`, the handle
afterwards and the call issued. `os` is the value `getsockopt` returns and the
value it left in `v`. -/
def socket_base.getoption (s : socket_base) (o : Int) (level : Int) (os : Int × Int) :
    Int × serror × socket_base × List oscall :=
  (os.2, { type := errortype.BSD, erno := os.1 }, s, [oscall.getsockopt 0 level o])

/-! ## Example values -/

/-- The address 127.0.0.1 port 8080. -/
def example_ipv4 : sockaddress :=
  { d := ipv4, addr := [127, 0, 0, 1] ++ zeros 12, addrstring := ascii "127.0.0.1", port := 8080 }

/-- The address ::1 port 9090. -/
def example_ipv6 : sockaddress :=
  { d := ipv6, addr := zeros 15 ++ [1], addrstring := ascii "::1", port := 9090 }

/-- The local address of path /tmp/example.sock. -/
def example_path : sockaddress :=
  { d := unix, addr := zeros 16, addrstring := ascii "/tmp/example.sock", port := 0 }

/-- A local address with a 5-byte abstract name: a zero byte, then "abcd". -/
def example_abstract : sockaddress :=
  { d := unix, addr := zeros 16, addrstring := 0 :: ascii "abcd", port := 0 }

/-- A parser that parses no text. -/
def pton_none : Nat → Bytes → Option Bytes := fun _ _ => none

/-- A formatter that gives the empty text for every address. -/
def ntop_empty : Nat → Bytes → Bytes := fun _ _ => []

/-- A native ipv4 address: the wildcard host 0.0.0.0, port 8080. -/
def example_any4 : sockaddr_storage :=
  { ss_family := ipv4, ss_data := [31, 144, 0, 0, 0, 0] ++ zeros 120 }

/-- A native ipv6 address: the wildcard host ::, port 9090. -/
def example_any6 : sockaddr_storage :=
  { ss_family := ipv6, ss_data := [35, 130] ++ zeros 124 }

/-- A native ipv4 address: host 10.0.0.7, port 8080. -/
def example_host4 : sockaddr_storage :=
  { ss_family := ipv4, ss_data := [31, 144, 10, 0, 0, 7] ++ zeros 120 }

/-- A parser that knows the single text "127.0.0.1". -/
def pton_loopback : Nat → Bytes → Option Bytes :=
  fun af t => if af = ipv4 ∧ t = ascii "127.0.0.1" then some [127, 0, 0, 1] else none

/-- The address written as the text "127.0.0.1" with port 8080, no binary host. -/
def example_text4 : sockaddress :=
  { d := ipv4, addr := zeros 16, addrstring := ascii "127.0.0.1", port := 8080 }

/-- The ipv6 address with no binary host and no text, port 9090. -/
def example_blank6 : sockaddress :=
  { d := ipv6, addr := zeros 16, addrstring := [], port := 9090 }

/-- A native local address with the abstract name zero, a, b, c, d, in a
storage whose bytes behind the field `sun_path` are not zero. -/
def example_overlong : sockaddr_storage :=
  { ss_family := unix, ss_data := 0 :: ascii "abcd" ++ zeros 103 ++ List.replicate 18 255 }

/-- A native local address whose field `sun_path` holds 108 bytes "a" and no
terminator; the storage goes on with a byte "b" and zero bytes. -/
def example_unterminated : sockaddr_storage :=
  { ss_family := unix, ss_data := List.replicate 108 97 ++ [98] ++ zeros 17 }

/-- A native local address of path /tmp/example.sock, as the system reports it. -/
def example_native_path : sockaddr_storage :=
  { ss_family := unix, ss_data := ascii "/tmp/example.sock" ++ zeros 109 }

/-- The local address of path /tmp/example.sock with the port member set to 5,
as `bind(std::string, unsigned short)` builds it on a local-family handle. -/
def example_path_port : sockaddress :=
  { d := unix, addr := zeros 16, addrstring := ascii "/tmp/example.sock", port := 5 }

/-- Enumerator values and a default index 0 for `socks.hpp`. -/
def example_hpp : socks_hpp :=
  { NOBYTES := 1, INVALID := 2, CLOSED := 3, UNBOUND := 4, OPTTYPE := 5, NOLISTEN := 6,
    BADPSR := 1, BADPRR := 2, index := 0 }

/-- A fresh ipv4 stream handle on descriptor 3: not bound, not listening. -/
def example_handle4 : socket_base :=
  { socket_base.members with m_sockid := 3, m_domain := ipv4, m_protocol := tcp }

/-- A hook that accepts every packet and leaves it as it is. -/
def hook_keep : packet → Int × packet := fun p => (0, p)

/-- A hook that accepts every packet and appends a zero byte to its payload. -/
def hook_pad : packet → Int × packet := fun p => (0, { p with data := p.data ++ [0] })

/-- A listening ipv4 stream handle with two pre-send and two post-receive
stages, registered under the keys 0 and 1. -/
def example_listener : socket_base :=
  { socket_base.members with
    m_sockid := 3, m_domain := ipv4, m_protocol := tcp, m_valid := true, m_bound := true,
    m_listening := true,
    m_presend := [(0, some hook_keep), (1, some hook_pad)],
    m_postrecv := [(0, some hook_keep), (1, some hook_pad)] }

/-- The system's answers for a wrapped descriptor whose queries all fail. -/
def example_os_wrap : os_wrap := { so_type := none, sockname := none, peername := none }

/-- The value `ECONNRESET` of `errno.h`. -/
def ECONNRESET : Int := 104

/-- A fresh ipv4 stream handle on descriptor 3, as the constructor leaves it. -/
def example_tcp : socket_base :=
  { socket_base.members with m_domain := ipv4, m_protocol := tcp, m_sockid := 3 }

/-- A fresh ipv4 datagram handle on descriptor 3, as the constructor leaves it. -/
def example_udp : socket_base :=
  { socket_base.members with m_domain := ipv4, m_protocol := udp, m_sockid := 3 }

/-- A successful `bind` followed by a successful `listen`. -/
def example_bind_listen : List op :=
  [op.bind example_ipv4 (.ok ()) none, op.listen 5 (.ok ())]

/-- A successful `connect`, nothing else. -/
def example_connect : List op :=
  [op.connect example_ipv4 (.ok ()) none none]

/-- A packet of ten payload bytes for 127.0.0.1 port 8080. -/
def example_packet : packet :=
  { data := [1, 2, 3, 4, 5, 6, 7, 8, 9, 10], rem := example_ipv4 }

/-- A hook that accepts every packet and appends the byte `b` to its payload. -/
def hook_tag (b : Nat) : packet → Int × packet :=
  fun p => (0, { p with data := p.data ++ [b] })

/-- A hook that rejects every packet with the code `r` and leaves it as it is. -/
def hook_reject (r : Int) : packet → Int × packet := fun p => (r, p)

/-- Two registrations: first a stage under key 1 that appends the byte 1, then
a stage under key 0 that appends the byte 2. -/
def example_regs : List (Nat × hook) := [(1, some (hook_tag 1)), (0, some (hook_tag 2))]

/-- Three registrations under the keys 0, 1, 2: append 1, reject with 7, append 3. -/
def example_regs_reject : List (Nat × hook) :=
  [(0, some (hook_tag 1)), (1, some (hook_reject 7)), (2, some (hook_tag 3))]

/-- A valid stream handle on descriptor 3 with the stages of `example_regs`
registered for sending and for receiving. -/
def example_chain : socket_base :=
  { socket_base.members with
    m_sockid := 3, m_domain := ipv4, m_protocol := tcp, m_valid := true,
    m_presend := registered example_regs, m_postrecv := registered example_regs }

/-- A valid stream handle on descriptor 3 with the stages of
`example_regs_reject` registered for sending and for receiving. -/
def example_chain_reject : socket_base :=
  { socket_base.members with
    m_sockid := 3, m_domain := ipv4, m_protocol := tcp, m_valid := true,
    m_presend := registered example_regs_reject, m_postrecv := registered example_regs_reject }

/-- A valid stream handle on descriptor 3 without hooks. -/
def example_connected : socket_base :=
  { socket_base.members with m_sockid := 3, m_domain := ipv4, m_protocol := tcp, m_valid := true }

/-- A packet with the one payload byte 9 for 127.0.0.1 port 8080. -/
def example_packet9 : packet := { data := [9], rem := example_ipv4 }

/-- A connected ipv4 stream `socket` that owns descriptor 3. -/
def example_socket : socket :=
  { m_validFD := true, m_sockFD := 3, m_domain := ipv4, m_type := tcp, m_protocol := 0 }

/-- A second ipv4 stream `socket`, which owns descriptor 4. -/
def example_socket_other : socket :=
  { m_validFD := true, m_sockFD := 4, m_domain := ipv4, m_type := tcp, m_protocol := 0 }

/-- A local stream `socket` that owns descriptor 5. -/
def example_socket_unix : socket :=
  { m_validFD := true, m_sockFD := 5, m_domain := unix, m_type := tcp, m_protocol := 0 }

/-- A reading of the absent address classes: a unix address is named when its
length exceeds the header and its path does not start with a zero byte, and its
name is the path as from-native decodes it. -/
def example_address_hpp : address_hpp :=
  { named := fun sa len => decide (len > sizeof_sa_family_t) && sa.ss_data.getD 0 0 != 0,
    name := fun sa len => (satosa_from ntop_empty sa len).addrstring }

/-- Ten payload bytes. -/
def example_payload : Bytes := [1, 2, 3, 4, 5, 6, 7, 8, 9, 10]

/-- Three sockets on the descriptors 3, 4 and 5. -/
def example_sockets : List socket := [example_socket, example_socket_other, example_socket_unix]

/-- A C library whose text for the code 0 is "Success" (as glibc has it) and
that has the text "Connection reset by peer" for every other code. -/
def example_strerror : Int → Bytes :=
  fun e => if e = 0 then ascii "Success" else ascii "Connection reset by peer"

/-- The message the server sends in the test `SocketsCanCommunicate`. -/
def example_hosts_message : Bytes := ascii "You have reached the server."

/-- The message the client sends in the test `SocketsCanCommunicate`. -/
def example_clients_message : Bytes := ascii "Hey server, just saying hello!"

/-- Ten answers of a system that takes one byte with every call. -/
def example_one_by_one : List (Except Int Nat) := List.replicate 10 (.ok 1)

/-! ## Lemmas on the memory operations -/

theorem length_zeros (n : Nat) : (zeros n).length = n := by
  simp [zeros]

theorem length_memcpy (dst : Bytes) (off : Nat) (src : Bytes) (n : Nat)
    (hn : n ≤ src.length) (hd : off + n ≤ dst.length) :
    (memcpy dst off src n).length = dst.length := by
  simp only [memcpy, List.length_append, List.length_take, List.length_drop]
  omega

theorem readAt_memcpy_same (dst : Bytes) (off : Nat) (src : Bytes) (n : Nat)
    (hn : n ≤ src.length) (hd : off ≤ dst.length) :
    readAt (memcpy dst off src n) off n = src.take n := by
  have h1 : (dst.take off).length = off := by simp [List.length_take]; omega
  have h2 : (src.take n).length = n := by simp [List.length_take]; omega
  simp only [memcpy, readAt, List.append_assoc]
  rw [List.drop_left' h1, List.take_left' h2]

theorem readAt_memcpy_before (dst : Bytes) (off : Nat) (src : Bytes) (n off' n' : Nat)
    (hle : off' + n' ≤ off) (hd : off ≤ dst.length) :
    readAt (memcpy dst off src n) off' n' = readAt dst off' n' := by
  have h1 : (dst.take off).length = off := by simp [List.length_take]; omega
  simp only [memcpy, readAt, List.append_assoc]
  rw [List.drop_append_of_le_length (by omega), List.take_append_of_le_length
    (by simp only [List.length_drop]; omega), List.drop_take]
  rw [List.take_take]
  congr 1
  omega

theorem readAt_memcpy_after (dst : Bytes) (off : Nat) (src : Bytes) (n off' n' : Nat)
    (hge : off + n ≤ off') (hn : n ≤ src.length) (hd : off ≤ dst.length) :
    readAt (memcpy dst off src n) off' n' = readAt dst off' n' := by
  have h1 : (dst.take off ++ src.take n).length = off + n := by
    simp [List.length_take]; omega
  simp only [memcpy, readAt]
  have h3 : off' = (dst.take off ++ src.take n).length + (off' - (off + n)) := by omega
  rw [h3, List.drop_append, List.drop_drop, h1]

theorem ntohs_htons (p : Nat) (hp : p < 65536) : ntohs (htons p) = p := by
  simp only [ntohs, htons, List.getD_cons_zero, List.getD_cons_succ]
  omega

theorem all_zero_iff (l : Bytes) : l.all (fun b => b == 0) = true ↔ l = zeros l.length := by
  induction l with
  | nil => simp [zeros]
  | cons x xs ih =>
    simp only [List.all_cons, Bool.and_eq_true, beq_iff_eq, ih, zeros, List.length_cons,
      List.replicate_succ, List.cons.injEq]

theorem c_str_append_zero (l r : Bytes) (h : 0 ∉ l) : c_str (l ++ 0 :: r) = l := by
  induction l with
  | nil => simp [c_str]
  | cons x xs ih =>
    have hx : x ≠ 0 := fun e => h (by simp [e])
    have hxs : 0 ∉ xs := fun e => h (by simp [e])
    have := ih hxs
    simp only [c_str] at this
    simp [c_str, hx, this]

/-! ## The conversions: round trip -/

theorem addrzero_eq_false (addr : Bytes) (n : Nat) (hn : n ≤ sizeof_addr)
    (h : ¬ addr.take n = zeros (addr.take n).length) : addrzero addr n = false := by
  have hm : min sizeof_addr n = n := by omega
  rw [addrzero, hm]
  cases hb : (addr.take n).all (fun b => b == 0) with
  | false => rfl
  | true => exact absurd ((all_zero_iff _).1 hb) h

theorem inet_ntop_unix (ntop : Nat → Bytes → Bytes) (src : Bytes) :
    inet_ntop ntop unix src = none := by
  simp [inet_ntop, unix, ipv4, ipv6]

theorem satosa_roundtrip_ipv4 (pton : Nat → Bytes → Option Bytes) (ntop : Nat → Bytes → Bytes)
    (a : sockaddress) (n0 : Nat) (hd : a.d = ipv4) (hlen : a.addr.length = sizeof_addr)
    (hport : a.port < 65536) (hnz : ¬ a.addr.take 4 = zeros 4) :
    (satosa_from ntop (satosa_to pton a n0).1 (satosa_to pton a n0).2).d = a.d ∧
    (satosa_from ntop (satosa_to pton a n0).1 (satosa_to pton a n0).2).port = a.port ∧
    (satosa_from ntop (satosa_to pton a n0).1 (satosa_to pton a n0).2).addr.take 4
      = a.addr.take 4 := by
  have hz : addrzero a.addr sizeof_in_addr = false := by
    apply addrzero_eq_false _ _ (by decide)
    have : (a.addr.take sizeof_in_addr).length = 4 := by
      simp [sizeof_in_addr, List.length_take, hlen, sizeof_addr]
    rw [this]; exact hnz
  have hl : sizeof_in_addr ≤ a.addr.length := by rw [hlen]; decide
  simp only [satosa_to, hd, if_true, hz, Bool.false_eq_true, if_false, satosa_from]
  have e1 : inet_ntop ntop ipv4 = fun src => some (ntop ipv4 (src.take sizeof_in_addr)) := by
    funext src; simp [inet_ntop]
  simp only [e1]
  refine ⟨trivial, ?_, ?_⟩
  · show ntohs (readAt _ off_sin_port 2) = a.port
    rw [readAt_memcpy_same _ _ _ _ (by simp [htons]) (by simp [off_sin_port])]
    exact ntohs_htons _ hport
  · show List.take 4 (memcpy _ 0 _ sizeof_in_addr) = _
    rw [readAt_memcpy_after _ _ _ _ _ _ (by decide) (by simp [htons])
      (by simp [off_sin_port])]
    rw [readAt_memcpy_same _ _ _ _ hl (by simp [length_zeros]; decide)]
    simp only [memcpy, sizeof_in_addr, sockaddress.new, List.take_zero, List.nil_append]
    have hl4 : 4 ≤ a.addr.length := hl
    rw [List.take_take, Nat.min_self]
    refine List.take_left' ?_
    rw [List.length_take]
    omega

theorem satosa_roundtrip_ipv6 (pton : Nat → Bytes → Option Bytes) (ntop : Nat → Bytes → Bytes)
    (a : sockaddress) (n0 : Nat) (hd : a.d = ipv6) (hlen : a.addr.length = sizeof_addr)
    (hport : a.port < 65536) (hnz : ¬ a.addr = zeros 16) :
    (satosa_from ntop (satosa_to pton a n0).1 (satosa_to pton a n0).2).d = a.d ∧
    (satosa_from ntop (satosa_to pton a n0).1 (satosa_to pton a n0).2).port = a.port ∧
    (satosa_from ntop (satosa_to pton a n0).1 (satosa_to pton a n0).2).addr = a.addr := by
  have hl : sizeof_in6_addr ≤ a.addr.length := by rw [hlen]; decide
  have hl16 : a.addr.length = 16 := hlen
  have ht : a.addr.take sizeof_in6_addr = a.addr := List.take_of_length_le (by rw [hlen]; decide)
  have hz : addrzero a.addr sizeof_in6_addr = false := by
    apply addrzero_eq_false _ _ (by decide)
    rw [ht, hl16]; exact hnz
  have h46 : ¬ ipv6 = ipv4 := by decide
  simp only [satosa_to, hd, h46, if_true, hz, Bool.false_eq_true, if_false, satosa_from]
  have e1 : inet_ntop ntop ipv6 = fun src => some (ntop ipv6 (src.take sizeof_in6_addr)) := by
    funext src; simp [inet_ntop, h46]
  simp only [e1]
  refine ⟨trivial, ?_, ?_⟩
  · show ntohs (readAt _ off_sin6_port 2) = a.port
    rw [readAt_memcpy_same _ _ _ _ (by simp [htons]) (by simp [off_sin6_port])]
    exact ntohs_htons _ hport
  · show memcpy _ 0 _ sizeof_in6_addr = _
    rw [readAt_memcpy_after _ _ _ _ _ _ (by decide) (by simp [htons])
      (by simp [off_sin6_port])]
    rw [readAt_memcpy_same _ _ _ _ hl (by simp [length_zeros]; decide)]
    simp only [memcpy, sockaddress.new, List.take_zero, List.nil_append, List.take_take,
      Nat.min_self, ht]
    rw [List.drop_of_length_le (by simp [length_zeros, sizeof_addr, sizeof_in6_addr])]
    simp

theorem satosa_roundtrip_unix (pton : Nat → Bytes → Option Bytes) (ntop : Nat → Bytes → Bytes)
    (a : sockaddress) (n0 : Nat) (hd : a.d = unix) (hp : a.port = 0)
    (hne : a.addrstring ≠ []) (hlen : a.addrstring.length ≤ 107) (hnz : 0 ∉ a.addrstring) :
    (satosa_from ntop (satosa_to pton a n0).1 (satosa_to pton a n0).2).d = a.d ∧
    (satosa_from ntop (satosa_to pton a n0).1 (satosa_to pton a n0).2).port = a.port ∧
    (satosa_from ntop (satosa_to pton a n0).1 (satosa_to pton a n0).2).addrstring
      = a.addrstring := by
  have h14 : ¬ unix = ipv4 := by decide
  have h16 : ¬ unix = ipv6 := by decide
  have hmin : min (sizeof_sun_path - 1) a.addrstring.length = a.addrstring.length := by
    have : sizeof_sun_path - 1 = 107 := rfl
    omega
  -- the encoded bytes are the name followed by zero bytes
  have hdata : (satosa_to pton a n0).1.ss_data
      = a.addrstring ++ 0 :: zeros (125 - a.addrstring.length) := by
    simp only [satosa_to, hd, h14, h16, if_true, if_false, hmin, off_sun_path, memcpy,
      List.take_zero, List.nil_append, Nat.zero_add, List.take_length]
    rw [List.set_append_right _ _ (le_refl _), Nat.sub_self]
    have hz : List.drop a.addrstring.length
        ((zeros (sizeof_sockaddr_storage - sizeof_sa_family_t)).set 0 0)
        = 0 :: zeros (125 - a.addrstring.length) := by
      have e : (zeros (sizeof_sockaddr_storage - sizeof_sa_family_t)).set 0 0 = zeros 126 := by
        decide
      rw [e]
      simp only [zeros, List.drop_replicate]
      have : 126 - a.addrstring.length = (125 - a.addrstring.length) + 1 := by omega
      rw [this, List.replicate_succ]
    rw [hz]
    rfl
  have hfam : (satosa_to pton a n0).1.ss_family = unix := by
    simp [satosa_to, hd, h14, h16]
  have hsl : (satosa_to pton a n0).2 = sizeof_sockaddr_un := by
    simp [satosa_to, hd, h14, h16]
  obtain ⟨x, xs, hx⟩ := List.exists_cons_of_ne_nil hne
  have hx0 : x ≠ 0 := fun e => hnz (by rw [hx, e]; simp)
  have hfirst : ((satosa_to pton a n0).1.ss_data.getD off_sun_path 0 = 0) = False := by
    rw [hdata, hx]
    simp [off_sun_path, hx0]
  simp only [satosa_from, hfam, h14, h16, if_true, if_false, hsl, hfirst, inet_ntop_unix]
  have hgt : sizeof_sockaddr_un > sizeof_sa_family_t := by decide
  simp only [hgt, if_true, hd, hp, inet_ntop_unix, true_and]
  show c_str (List.drop off_sun_path _) = _
  rw [hdata]
  exact c_str_append_zero _ _ hnz

/-- Claim C1. Address round trip: decoding with from-native the encoding and
the length produced by to-native gives back the family, the port and the host
of an ipv4 or ipv6 address whose binary host bytes (4 resp. 16) are not all
zero, and the family, the port and the name of a local address with port 0
whose name is a non-empty path of at most 107 bytes without a zero byte. -/
theorem satosa_round_trip (pton : Nat → Bytes → Option Bytes) (ntop : Nat → Bytes → Bytes)
    (a : sockaddress) (n0 : Nat)
    (hlen : a.addr.length = sizeof_addr) (hport : a.port < 65536)
    (h : (a.d = ipv4 ∧ a.addr.take 4 ≠ zeros 4) ∨ (a.d = ipv6 ∧ a.addr ≠ zeros 16) ∨
      (a.d = unix ∧ a.port = 0 ∧ a.addrstring ≠ [] ∧ a.addrstring.length ≤ 107 ∧
        0 ∉ a.addrstring)) :
    (satosa_from ntop (satosa_to pton a n0).1 (satosa_to pton a n0).2).d = a.d ∧
    (satosa_from ntop (satosa_to pton a n0).1 (satosa_to pton a n0).2).port = a.port ∧
    (a.d = ipv4 →
      (satosa_from ntop (satosa_to pton a n0).1 (satosa_to pton a n0).2).addr.take 4
        = a.addr.take 4) ∧
    (a.d = ipv6 →
      (satosa_from ntop (satosa_to pton a n0).1 (satosa_to pton a n0).2).addr = a.addr) ∧
    (a.d = unix →
      (satosa_from ntop (satosa_to pton a n0).1 (satosa_to pton a n0).2).addrstring
        = a.addrstring) := by
  rcases h with ⟨hd, hnz⟩ | ⟨hd, hnz⟩ | ⟨hd, hp, hne, hl, hnz⟩
  · obtain ⟨h1, h2, h3⟩ := satosa_roundtrip_ipv4 pton ntop a n0 hd hlen hport hnz
    refine ⟨h1, h2, fun _ => h3, fun h6 => ?_, fun hu => ?_⟩
    · rw [hd] at h6; exact absurd h6 (by decide)
    · rw [hd] at hu; exact absurd hu (by decide)
  · obtain ⟨h1, h2, h3⟩ := satosa_roundtrip_ipv6 pton ntop a n0 hd hlen hport hnz
    refine ⟨h1, h2, fun h4 => ?_, fun _ => h3, fun hu => ?_⟩
    · rw [hd] at h4; exact absurd h4 (by decide)
    · rw [hd] at hu; exact absurd hu (by decide)
  · obtain ⟨h1, h2, h3⟩ := satosa_roundtrip_unix pton ntop a n0 hd hp hne hl hnz
    refine ⟨h1, h2, fun h4 => ?_, fun h6 => ?_, fun _ => h3⟩
    · rw [hd] at h4; exact absurd h4 (by decide)
    · rw [hd] at h6; exact absurd h6 (by decide)

/-- Claim C1 at 127.0.0.1 port 8080, at ::1 port 9090 and at the path /tmp/example.sock. -/
theorem satosa_round_trip_witness :
    ((satosa_from ntop_empty (satosa_to pton_none example_ipv4 128).1
        (satosa_to pton_none example_ipv4 128).2).port = 8080 ∧
      (satosa_from ntop_empty (satosa_to pton_none example_ipv4 128).1
        (satosa_to pton_none example_ipv4 128).2).addr.take 4 = [127, 0, 0, 1]) ∧
    ((satosa_from ntop_empty (satosa_to pton_none example_ipv6 128).1
        (satosa_to pton_none example_ipv6 128).2).port = 9090 ∧
      (satosa_from ntop_empty (satosa_to pton_none example_ipv6 128).1
        (satosa_to pton_none example_ipv6 128).2).addr = zeros 15 ++ [1]) ∧
    ((satosa_from ntop_empty (satosa_to pton_none example_path 128).1
        (satosa_to pton_none example_path 128).2).port = 0 ∧
      (satosa_from ntop_empty (satosa_to pton_none example_path 128).1
        (satosa_to pton_none example_path 128).2).addrstring = ascii "/tmp/example.sock") := by
  have h4 := satosa_round_trip pton_none ntop_empty example_ipv4 128 (by decide) (by decide)
    (Or.inl (by decide))
  have h6 := satosa_round_trip pton_none ntop_empty example_ipv6 128 (by decide) (by decide)
    (Or.inr (Or.inl (by decide)))
  have hu := satosa_round_trip pton_none ntop_empty example_path 128 (by decide) (by decide)
    (Or.inr (Or.inr (by decide)))
  exact ⟨⟨h4.2.1, h4.2.2.1 rfl⟩, ⟨h6.2.1, h6.2.2.2.1 rfl⟩, ⟨hu.2.1, hu.2.2.2.2 rfl⟩⟩

/-- Claim C2, evaluated on the code. For every local address whose name is a
5-byte abstract name (first byte zero), to-native reports the length 110 (the
size of `sockaddr_un`), and from-native applied to the encoding and that length
gives a name of 108 bytes: the five bytes of the name followed by 103 zero
bytes. The port is 0, but the name is not reproduced. -/
theorem satosa_abstract_name_padded (pton : Nat → Bytes → Option Bytes)
    (ntop : Nat → Bytes → Bytes) (a : sockaddress) (n0 : Nat)
    (hd : a.d = unix) (hl : a.addrstring.length = 5) (h0 : a.addrstring.head? = some 0) :
    (satosa_to pton a n0).2 = 110 ∧
    (satosa_from ntop (satosa_to pton a n0).1 (satosa_to pton a n0).2).addrstring
      = a.addrstring ++ zeros 103 ∧
    (satosa_from ntop (satosa_to pton a n0).1 (satosa_to pton a n0).2).addrstring
      ≠ a.addrstring ∧
    (satosa_from ntop (satosa_to pton a n0).1 (satosa_to pton a n0).2).port = 0 := by
  obtain ⟨d, addr, name, port⟩ := a
  simp only at hd hl h0
  subst hd
  match name, hl, h0 with
  | [b0, b1, b2, b3, b4], _, h0 =>
    simp only [List.head?_cons, Option.some.injEq] at h0
    subst h0
    refine ⟨rfl, rfl, ?_, rfl⟩
    intro e
    have h := congrArg List.length e
    have e2 : (satosa_from ntop (satosa_to pton ⟨unix, addr, [0, b1, b2, b3, b4], port⟩ n0).1
      (satosa_to pton ⟨unix, addr, [0, b1, b2, b3, b4], port⟩ n0).2).addrstring
      = [0, b1, b2, b3, b4] ++ zeros 103 := rfl
    rw [e2] at h
    simp [zeros] at h

/-- Claim C2 on the code, at the abstract name zero, a, b, c, d: the decoded
name has 108 bytes. -/
theorem satosa_abstract_name_padded_witness :
    (example_abstract.d = unix ∧ example_abstract.addrstring.length = 5 ∧
      example_abstract.addrstring.head? = some 0) ∧
    (satosa_from ntop_empty (satosa_to pton_none example_abstract 128).1
      (satosa_to pton_none example_abstract 128).2).addrstring
      = [0, 97, 98, 99, 100] ++ zeros 103 ∧
    (satosa_from ntop_empty (satosa_to pton_none example_abstract 128).1
      (satosa_to pton_none example_abstract 128).2).addrstring.length = 108 := by
  have h := satosa_abstract_name_padded pton_none ntop_empty example_abstract 128 rfl rfl rfl
  exact ⟨⟨rfl, rfl, rfl⟩, h.2.1, by rw [h.2.1]; rfl⟩

/-! ## any-to-loopback -/

/-- Claim C3. anytoloop: on a native ipv4 or ipv6 address whose host is the
wildcard value of the family the result has the loopback host of the family and
the same port and family; on one whose host is not the wildcard value the
native address is unchanged. -/
theorem anytoloop_spec (saddr : sockaddr_storage)
    (hlen : saddr.ss_data.length = sizeof_sockaddr_storage - sizeof_sa_family_t) :
    (saddr.ss_family = ipv4 →
      (readAt saddr.ss_data off_sin_addr sizeof_in_addr = INADDR_ANY →
        (anytoloop saddr).ss_family = saddr.ss_family ∧
        readAt (anytoloop saddr).ss_data off_sin_addr sizeof_in_addr = [127, 0, 0, 1] ∧
        readAt (anytoloop saddr).ss_data off_sin_port 2
          = readAt saddr.ss_data off_sin_port 2) ∧
      (readAt saddr.ss_data off_sin_addr sizeof_in_addr ≠ INADDR_ANY →
        anytoloop saddr = saddr)) ∧
    (saddr.ss_family = ipv6 →
      (readAt saddr.ss_data off_sin6_addr sizeof_in6_addr = in6addr_any →
        (anytoloop saddr).ss_family = saddr.ss_family ∧
        readAt (anytoloop saddr).ss_data off_sin6_addr sizeof_in6_addr
          = [0, 0, 0, 0, 0, 0, 0, 0, 0, 0, 0, 0, 0, 0, 0, 1] ∧
        readAt (anytoloop saddr).ss_data off_sin6_port 2
          = readAt saddr.ss_data off_sin6_port 2) ∧
      (readAt saddr.ss_data off_sin6_addr sizeof_in6_addr ≠ in6addr_any →
        anytoloop saddr = saddr)) := by
  have hl : saddr.ss_data.length = 126 := hlen
  have h64 : ¬ ipv6 = ipv4 := by decide
  refine ⟨fun h4 => ⟨fun hany => ?_, fun hne => ?_⟩, fun h6 => ⟨fun hany => ?_, fun hne => ?_⟩⟩
  · simp only [anytoloop, h4, if_true, hany, true_and]
    refine ⟨?_, ?_⟩
    · rw [readAt_memcpy_same _ _ _ _ (by decide) (by rw [hl]; decide)]
      rfl
    · rw [readAt_memcpy_before _ _ _ _ _ _ (by decide) (by rw [hl]; decide)]
  · simp only [anytoloop, h4, if_true, hne, if_false]
  · simp only [anytoloop, h6, h64, if_true, if_false, hany, true_and]
    refine ⟨?_, ?_⟩
    · rw [readAt_memcpy_same _ _ _ _ (by decide) (by rw [hl]; decide)]
      rfl
    · rw [readAt_memcpy_before _ _ _ _ _ _ (by decide) (by rw [hl]; decide)]
  · simp only [anytoloop, h6, h64, if_true, if_false, hne]

set_option maxRecDepth 8192 in
/-- Claim C3 at 0.0.0.0 port 8080, at :: port 9090 and at 10.0.0.7 port 8080. -/
theorem anytoloop_spec_witness :
    example_any4.ss_data.length = sizeof_sockaddr_storage - sizeof_sa_family_t ∧
    (readAt (anytoloop example_any4).ss_data off_sin_addr sizeof_in_addr = [127, 0, 0, 1] ∧
      readAt (anytoloop example_any4).ss_data off_sin_port 2 = htons 8080) ∧
    (readAt (anytoloop example_any6).ss_data off_sin6_addr sizeof_in6_addr
        = [0, 0, 0, 0, 0, 0, 0, 0, 0, 0, 0, 0, 0, 0, 0, 1] ∧
      readAt (anytoloop example_any6).ss_data off_sin6_port 2 = htons 9090) ∧
    anytoloop example_host4 = example_host4 := by
  have h4 := ((anytoloop_spec example_any4 rfl).1 rfl).1 rfl
  have h6 := ((anytoloop_spec example_any6 rfl).2 rfl).1 rfl
  have hh := ((anytoloop_spec example_host4 rfl).1 rfl).2 (by decide)
  exact ⟨rfl, ⟨h4.2.1, h4.2.2.trans rfl⟩, ⟨h6.2.1, h6.2.2.trans rfl⟩, hh⟩

/-! ## to-native: host and port of an ipv4 or ipv6 address -/

theorem addrzero_eq_true (addr : Bytes) (n : Nat) (hn : n ≤ sizeof_addr)
    (h : addr.take n = zeros (addr.take n).length) : addrzero addr n = true := by
  have hm : min sizeof_addr n = n := by omega
  rw [addrzero, hm]
  exact (all_zero_iff _).2 h

theorem readAt_port_host (data : Bytes) (p off n : Nat) (h : 2 ≤ off) :
    readAt (memcpy data 0 (htons p) 2) 0 2 = htons p ∧
    readAt (memcpy data 0 (htons p) 2) off n = readAt data off n :=
  ⟨readAt_memcpy_same _ _ _ _ (by simp [htons]) (Nat.zero_le _),
   readAt_memcpy_after _ _ _ _ _ _ (by omega) (by simp [htons]) (Nat.zero_le _)⟩

theorem htons_of_lt (p : Nat) (hp : p < 65536) : htons p = [p / 256, p % 256] := by
  have : p / 256 % 256 = p / 256 := Nat.mod_eq_of_lt (by omega)
  simp [htons, this]

/-- Claim C4. to-native for an ipv4 or ipv6 address: the encoded host is the
binary host when that is not all zero; when it is all zero and the text is not
empty it is the value parsed from the text (and stays all zero when the text
does not parse); when it is all zero and the text is empty it is the wildcard
value of the family; the encoded port field is in every case the 16-bit port,
high byte first. -/
theorem satosa_to_host_port (pton : Nat → Bytes → Option Bytes) (a : sockaddress) (n0 : Nat)
    (hlen : a.addr.length = sizeof_addr) (hport : a.port < 65536) :
    (a.d = ipv4 →
      readAt (satosa_to pton a n0).1.ss_data off_sin_port 2 = [a.port / 256, a.port % 256] ∧
      (a.addr.take 4 ≠ zeros 4 →
        readAt (satosa_to pton a n0).1.ss_data off_sin_addr sizeof_in_addr = a.addr.take 4) ∧
      (a.addr.take 4 = zeros 4 → a.addrstring ≠ [] →
        (∀ v, pton ipv4 (c_str a.addrstring) = some v → v.length = 4 →
          readAt (satosa_to pton a n0).1.ss_data off_sin_addr sizeof_in_addr = v) ∧
        (pton ipv4 (c_str a.addrstring) = none →
          readAt (satosa_to pton a n0).1.ss_data off_sin_addr sizeof_in_addr = zeros 4)) ∧
      (a.addr.take 4 = zeros 4 → a.addrstring = [] →
        readAt (satosa_to pton a n0).1.ss_data off_sin_addr sizeof_in_addr = INADDR_ANY)) ∧
    (a.d = ipv6 →
      readAt (satosa_to pton a n0).1.ss_data off_sin6_port 2 = [a.port / 256, a.port % 256] ∧
      (a.addr ≠ zeros 16 →
        readAt (satosa_to pton a n0).1.ss_data off_sin6_addr sizeof_in6_addr = a.addr) ∧
      (a.addr = zeros 16 → a.addrstring ≠ [] →
        (∀ v, pton ipv6 (c_str a.addrstring) = some v → v.length = 16 →
          readAt (satosa_to pton a n0).1.ss_data off_sin6_addr sizeof_in6_addr = v) ∧
        (pton ipv6 (c_str a.addrstring) = none →
          readAt (satosa_to pton a n0).1.ss_data off_sin6_addr sizeof_in6_addr = zeros 16)) ∧
      (a.addr = zeros 16 → a.addrstring = [] →
        readAt (satosa_to pton a n0).1.ss_data off_sin6_addr sizeof_in6_addr = in6addr_any)) := by
  have hl16 : a.addr.length = 16 := hlen
  have hzl : (zeros 126).length = 126 := length_zeros _
  have ht4 : (a.addr.take 4).length = 4 := by rw [List.length_take]; omega
  have ht16 : a.addr.take 16 = a.addr := List.take_of_length_le (by omega)
  have h64 : ¬ ipv6 = ipv4 := by decide
  refine ⟨fun hd => ?_, fun hd => ?_⟩
  · -- ipv4
    have hcopy : readAt (memcpy (zeros 126) 2 a.addr 4) 2 4 = a.addr.take 4 :=
      readAt_memcpy_same _ _ _ _ (by omega) (by rw [hzl]; decide)
    have hcl : (memcpy (zeros 126) 2 a.addr 4).length = 126 := by
      rw [length_memcpy _ _ _ _ (by omega) (by rw [hzl]; decide), hzl]
    have hf_of_nz : a.addr.take 4 ≠ zeros 4 → addrzero a.addr sizeof_in_addr = false :=
      fun hnz => addrzero_eq_false _ 4 (by decide) (by rw [ht4]; exact hnz)
    have hf_of_z : a.addr.take 4 = zeros 4 → addrzero a.addr sizeof_in_addr = true :=
      fun hz => addrzero_eq_true _ 4 (by decide) (by rw [ht4]; exact hz)
    refine ⟨?_, fun hnz => ?_, fun hz hne => ⟨fun v hv hvl => ?_, fun hv => ?_⟩, fun hz hne => ?_⟩
    · simp only [satosa_to, hd, if_true]
      show readAt (memcpy _ 0 (htons a.port) 2) 0 2 = _
      rw [(readAt_port_host _ _ 2 0 (le_refl _)).1, htons_of_lt _ hport]
    · simp only [satosa_to, hd, if_true, hf_of_nz hnz, Bool.false_eq_true, if_false]
      show readAt (memcpy (memcpy (zeros 126) 2 a.addr 4) 0 (htons a.port) 2) 2 4 = _
      rw [(readAt_port_host _ _ 2 4 (le_refl _)).2, hcopy]
    · have hpos : a.addrstring.length > 0 := List.length_pos.2 hne
      simp only [satosa_to, hd, if_true, hf_of_z hz, hpos, inet_pton, hv]
      show readAt (memcpy (memcpy (memcpy (zeros 126) 2 a.addr 4) 2 v 4) 0 (htons a.port) 2)
        2 4 = _
      rw [(readAt_port_host _ _ 2 4 (le_refl _)).2,
        readAt_memcpy_same _ _ _ _ (by rw [hvl]) (by rw [hcl]; decide)]
      exact List.take_of_length_le (by rw [hvl])
    · have hpos : a.addrstring.length > 0 := List.length_pos.2 hne
      simp only [satosa_to, hd, if_true, hf_of_z hz, hpos, inet_pton, hv]
      show readAt (memcpy (memcpy (zeros 126) 2 a.addr 4) 0 (htons a.port) 2) 2 4 = _
      rw [(readAt_port_host _ _ 2 4 (le_refl _)).2, hcopy, hz]
    · have hpos : ¬ a.addrstring.length > 0 := by simp [hne]
      simp only [satosa_to, hd, if_true, hf_of_z hz, hpos, if_false]
      show readAt (memcpy (memcpy (memcpy (zeros 126) 2 a.addr 4) 2 (zeros 4) 4) 0
        (htons a.port) 2) 2 4 = _
      rw [(readAt_port_host _ _ 2 4 (le_refl _)).2,
        readAt_memcpy_same _ _ _ _ (by decide) (by rw [hcl]; decide)]
      rfl
  · -- ipv6
    have hcopy : readAt (memcpy (zeros 126) 6 a.addr 16) 6 16 = a.addr := by
      rw [readAt_memcpy_same _ _ _ _ (by omega) (by rw [hzl]; decide)]
      exact ht16
    have hcl : (memcpy (zeros 126) 6 a.addr 16).length = 126 := by
      rw [length_memcpy _ _ _ _ (by omega) (by rw [hzl]; decide), hzl]
    have hf_of_nz : a.addr ≠ zeros 16 → addrzero a.addr sizeof_in6_addr = false :=
      fun hnz => addrzero_eq_false _ 16 (by decide) (by rw [ht16, hl16]; exact hnz)
    have hf_of_z : a.addr = zeros 16 → addrzero a.addr sizeof_in6_addr = true :=
      fun hz => addrzero_eq_true _ 16 (by decide) (by rw [ht16, hl16]; exact hz)
    refine ⟨?_, fun hnz => ?_, fun hz hne => ⟨fun v hv hvl => ?_, fun hv => ?_⟩, fun hz hne => ?_⟩
    · simp only [satosa_to, hd, h64, if_true, if_false]
      show readAt (memcpy _ 0 (htons a.port) 2) 0 2 = _
      rw [(readAt_port_host _ _ 2 0 (le_refl _)).1, htons_of_lt _ hport]
    · simp only [satosa_to, hd, h64, if_true, hf_of_nz hnz, Bool.false_eq_true, if_false]
      show readAt (memcpy (memcpy (zeros 126) 6 a.addr 16) 0 (htons a.port) 2) 6 16 = _
      rw [(readAt_port_host _ _ 6 16 (by decide)).2, hcopy]
    · have hpos : a.addrstring.length > 0 := List.length_pos.2 hne
      simp only [satosa_to, hd, h64, if_true, if_false, hf_of_z hz, hpos, inet_pton, hv]
      show readAt (memcpy (memcpy (memcpy (zeros 126) 6 a.addr 16) 6 v 16) 0 (htons a.port) 2)
        6 16 = _
      rw [(readAt_port_host _ _ 6 16 (by decide)).2,
        readAt_memcpy_same _ _ _ _ (by rw [hvl]) (by rw [hcl]; decide)]
      exact List.take_of_length_le (by rw [hvl])
    · have hpos : a.addrstring.length > 0 := List.length_pos.2 hne
      simp only [satosa_to, hd, h64, if_true, if_false, hf_of_z hz, hpos, inet_pton, hv]
      show readAt (memcpy (memcpy (zeros 126) 6 a.addr 16) 0 (htons a.port) 2) 6 16 = _
      rw [(readAt_port_host _ _ 6 16 (by decide)).2, hcopy, hz]
    · have hpos : ¬ a.addrstring.length > 0 := by simp [hne]
      simp only [satosa_to, hd, h64, if_true, hf_of_z hz, hpos, if_false]
      show readAt (memcpy (memcpy (memcpy (zeros 126) 6 a.addr 16) 6 (zeros 16) 16) 0
        (htons a.port) 2) 6 16 = _
      rw [(readAt_port_host _ _ 6 16 (by decide)).2,
        readAt_memcpy_same _ _ _ _ (by decide) (by rw [hcl]; decide)]
      rfl

set_option maxRecDepth 8192 in
/-- Claim C4 at the text "127.0.0.1" with port 8080 and no binary host, at
127.0.0.1 given in binary, and at an ipv6 address with neither binary host nor
text. -/
theorem satosa_to_host_port_witness :
    (example_text4.addr.length = sizeof_addr ∧ example_text4.port < 65536) ∧
    (readAt (satosa_to pton_loopback example_text4 128).1.ss_data off_sin_port 2 = [31, 144] ∧
      readAt (satosa_to pton_loopback example_text4 128).1.ss_data off_sin_addr sizeof_in_addr
        = [127, 0, 0, 1]) ∧
    readAt (satosa_to pton_loopback example_ipv4 128).1.ss_data off_sin_addr sizeof_in_addr
      = [127, 0, 0, 1] ∧
    readAt (satosa_to pton_loopback example_blank6 128).1.ss_data off_sin6_addr sizeof_in6_addr
      = in6addr_any := by
  have ht := (satosa_to_host_port pton_loopback example_text4 128 rfl (by decide)).1 rfl
  have hb := (satosa_to_host_port pton_loopback example_ipv4 128 rfl (by decide)).1 rfl
  have h6 := (satosa_to_host_port pton_loopback example_blank6 128 rfl (by decide)).2 rfl
  exact ⟨⟨rfl, by decide⟩, ⟨ht.1, (ht.2.2.1 rfl (by decide)).1 _ rfl rfl⟩,
    hb.2.1 (by decide), h6.2.2.2 rfl rfl⟩

/-! ## to-native: the length of a local address -/

/-- Claim C5 as stated fails. For the local address of path /tmp/example.sock
(17 bytes) to-native reports the length 110, not the header size plus the 17
bytes used, 19. -/
theorem satosa_to_unix_len_counterexample :
    (satosa_to pton_none example_path 128).2 = 110 ∧
    sizeof_sa_family_t + min (sizeof_sun_path - 1) example_path.addrstring.length = 19 ∧
    (satosa_to pton_none example_path 128).2
      ≠ sizeof_sa_family_t + min (sizeof_sun_path - 1) example_path.addrstring.length := by
  decide

/-- Claim C5, amended. For every local address whose name is a path (its
first byte is not zero), the length to-native reports through `saddrlen` is the
size of `sockaddr_un`: the header size plus the whole capacity of the path
field, whatever the length of the name. -/
theorem satosa_to_unix_len (pton : Nat → Bytes → Option Bytes) (a : sockaddress) (n0 : Nat)
    (hd : a.d = unix) (hpath : a.addrstring.headD 0 ≠ 0) :
    (satosa_to pton a n0).2 = sizeof_sockaddr_un ∧
    sizeof_sockaddr_un = sizeof_sa_family_t + sizeof_sun_path ∧
    a.addrstring ≠ [] := by
  have h14 : ¬ unix = ipv4 := by decide
  have h16 : ¬ unix = ipv6 := by decide
  refine ⟨by simp [satosa_to, hd, h14, h16], rfl, ?_⟩
  intro he
  rw [he] at hpath
  exact hpath rfl

/-- Claim C5, amended, at the path /tmp/example.sock. -/
theorem satosa_to_unix_len_witness :
    example_path.d = unix ∧ example_path.addrstring.headD 0 ≠ 0 ∧
    (satosa_to pton_none example_path 128).2 = 110 :=
  ⟨rfl, by decide, (satosa_to_unix_len pton_none example_path 128 rfl (by decide)).1⟩

/-! ## from-native: local addresses -/

theorem c_str_take (l : Bytes) (n : Nat) (h : 0 ∈ l.take n) : c_str l = c_str (l.take n) := by
  induction l generalizing n with
  | nil => simp
  | cons x xs ih =>
    cases n with
    | zero => simp at h
    | succ m =>
      by_cases hx : x = 0
      · simp [c_str, hx]
      · have hm : 0 ∈ xs.take m := by
          simp only [List.take_succ_cons, List.mem_cons] at h
          rcases h with h | h
          · exact absurd h.symm hx
          · exact h
        have := ih m hm
        simp only [c_str] at this
        simp [c_str, hx, this]

set_option maxRecDepth 16384 in
/-- Claim C6 as stated fails. With the length 128 (the default of the
parameter `slen`) the name decoded from an abstract local address has 126
bytes, more than the 108 bytes of the path field, so it is not made of bytes
of that field; and for a path form without a zero byte inside the path field
the decoded name goes on behind the field. -/
theorem satosa_from_unix_counterexample :
    ((satosa_from ntop_empty example_overlong 128).addrstring.length = 126 ∧
      (sun_path example_overlong).length = 108 ∧
      (satosa_from ntop_empty example_overlong 128).addrstring
        ≠ (sun_path example_overlong).take (128 - sizeof_sa_family_t)) ∧
    ((satosa_from ntop_empty example_unterminated 110).addrstring
        = List.replicate 108 97 ++ [98] ∧
      c_str (sun_path example_unterminated) = List.replicate 108 97 ∧
      (satosa_from ntop_empty example_unterminated 110).addrstring
        ≠ c_str (sun_path example_unterminated)) := by
  decide

/-- Claim C6, amended. from-native on a local-family native address: the
decoded port is 0 and the binary host all zero; (i) when the length does not
exceed the header size the name is empty; (ii) when the length exceeds the
header size without exceeding the size of `sockaddr_un` and the first path byte
is zero, the name is exactly the first `slen` minus header size bytes of the
path field, zero bytes included; (iii) when the length exceeds the header size,
the first path byte is not zero and the path field holds a zero byte, the name
is the bytes of the path field before its first zero byte. -/
theorem satosa_from_unix (ntop : Nat → Bytes → Bytes) (saddr : sockaddr_storage) (slen : Nat)
    (hfam : saddr.ss_family = unix)
    (hlen : saddr.ss_data.length = sizeof_sockaddr_storage - sizeof_sa_family_t) :
    (satosa_from ntop saddr slen).port = 0 ∧
    (satosa_from ntop saddr slen).addr = zeros 16 ∧
    (slen ≤ sizeof_sa_family_t → (satosa_from ntop saddr slen).addrstring = []) ∧
    (sizeof_sa_family_t < slen → slen ≤ sizeof_sockaddr_un →
      (sun_path saddr).getD 0 0 = 0 →
      (satosa_from ntop saddr slen).addrstring
          = (sun_path saddr).take (slen - sizeof_sa_family_t) ∧
        (satosa_from ntop saddr slen).addrstring.length = slen - sizeof_sa_family_t) ∧
    (sizeof_sa_family_t < slen → (sun_path saddr).getD 0 0 ≠ 0 → 0 ∈ sun_path saddr →
      (satosa_from ntop saddr slen).addrstring = c_str (sun_path saddr)) := by
  have h14 : ¬ unix = ipv4 := by decide
  have h16 : ¬ unix = ipv6 := by decide
  have hl : saddr.ss_data.length = 126 := hlen
  have hsp : sun_path saddr = saddr.ss_data.take 108 := rfl
  have hfirst : (sun_path saddr).getD 0 0 = saddr.ss_data.getD off_sun_path 0 := by
    rw [hsp]
    cases hdat : saddr.ss_data with
    | nil => rfl
    | cons x xs => rfl
  refine ⟨?_, ?_, fun h => ?_, fun h1 h2 h0 => ?_, fun h1 h0 hz => ?_⟩
  · simp only [satosa_from, hfam, h14, h16, if_true, if_false, inet_ntop_unix]
    split <;> rfl
  · simp only [satosa_from, hfam, h14, h16, if_true, if_false, inet_ntop_unix]
    split <;> rfl
  · have hn : ¬ slen > sizeof_sa_family_t := by omega
    simp only [satosa_from, hfam, h14, h16, if_true, if_false, inet_ntop_unix, hn]
    rfl
  · have hgt : slen > sizeof_sa_family_t := h1
    rw [hfirst] at h0
    simp only [satosa_from, hfam, h14, h16, if_true, if_false, inet_ntop_unix, hgt, h0]
    have h2' : slen - sizeof_sa_family_t ≤ 108 := by
      have : sizeof_sockaddr_un = 110 := rfl
      have : sizeof_sa_family_t = 2 := rfl
      omega
    have e : readAt saddr.ss_data off_sun_path (slen - sizeof_sa_family_t)
        = (sun_path saddr).take (slen - sizeof_sa_family_t) := by
      rw [hsp, List.take_take, Nat.min_eq_left h2']
      rfl
    refine ⟨e, ?_⟩
    show (readAt saddr.ss_data off_sun_path (slen - sizeof_sa_family_t)).length = _
    simp only [readAt, off_sun_path, List.drop_zero, List.length_take, hl]
    omega
  · have hgt : slen > sizeof_sa_family_t := h1
    rw [hfirst] at h0
    simp only [satosa_from, hfam, h14, h16, if_true, if_false, inet_ntop_unix, hgt, h0]
    show c_str (List.drop 0 saddr.ss_data) = _
    rw [List.drop_zero, hsp]
    exact c_str_take _ _ (by rw [← hsp]; exact hz)

set_option maxRecDepth 8192 in
/-- Claim C6, amended, at the abstract name zero, a, b, c, d with length 7, at
the path /tmp/example.sock with length 110, and at length 2. -/
theorem satosa_from_unix_witness :
    (example_overlong.ss_family = unix ∧
      example_overlong.ss_data.length = sizeof_sockaddr_storage - sizeof_sa_family_t) ∧
    ((satosa_from ntop_empty example_overlong 7).port = 0 ∧
      (satosa_from ntop_empty example_overlong 7).addrstring = 0 :: ascii "abcd") ∧
    (satosa_from ntop_empty example_native_path 110).addrstring = ascii "/tmp/example.sock" ∧
    (satosa_from ntop_empty example_native_path 2).addrstring = [] := by
  have ha := satosa_from_unix ntop_empty example_overlong 7 rfl rfl
  have hp := satosa_from_unix ntop_empty example_native_path 110 rfl rfl
  have he := satosa_from_unix ntop_empty example_native_path 2 rfl rfl
  exact ⟨⟨rfl, rfl⟩, ⟨ha.1, (ha.2.2.2.1 (by decide) (by decide) rfl).1.trans rfl⟩,
    (hp.2.2.2.2 (by decide) (by decide) (by decide)).trans (by decide), he.2.2.1 (by decide)⟩

/-! ## The textual form of an address -/

theorem ascii_colon_ne_nil (t : Bytes) : ascii ":" ++ t ≠ [] := by
  simp [ascii]

/-- Claim C7 as stated fails. The local address of path /tmp/example.sock
whose port member holds 5 is rendered with the suffix ":5", not as the bare
path. -/
theorem to_string_counterexample :
    example_path_port.d = unix ∧
    to_string example_path_port = ascii "/tmp/example.sock:5" ∧
    to_string example_path_port ≠ example_path_port.addrstring := by
  decide

/-- Claim C7, amended. For every address of any family the rendering is the
host text alone when the port is 0 and the host text, a colon and the decimal
port when the port is not 0; so a local-family address is rendered as its bare
path or name exactly when its port member is 0, which is the case of every
local address decoded by from-native. -/
theorem to_string_spec (ntop : Nat → Bytes → Bytes) (sa : sockaddress) :
    (sa.port = 0 → to_string sa = sa.addrstring) ∧
    (sa.port ≠ 0 →
      to_string sa = sa.addrstring ++ (ascii ":" ++ ascii (toString sa.port))) ∧
    (sa.d = unix → (to_string sa = sa.addrstring ↔ sa.port = 0)) ∧
    (∀ (saddr : sockaddr_storage) (slen : Nat), saddr.ss_family = unix →
      to_string (satosa_from ntop saddr slen) = (satosa_from ntop saddr slen).addrstring) := by
  have h0 : sa.port = 0 → to_string sa = sa.addrstring := by
    intro h
    simp [to_string, h]
  have h1 : sa.port ≠ 0 →
      to_string sa = sa.addrstring ++ (ascii ":" ++ ascii (toString sa.port)) := by
    intro h
    simp [to_string, h]
  refine ⟨h0, h1, fun _ => ⟨fun h => ?_, h0⟩, fun saddr slen hfam => ?_⟩
  · by_contra hp
    rw [h1 hp] at h
    exact ascii_colon_ne_nil _ (List.append_right_eq_self.1 h)
  · have h14 : ¬ unix = ipv4 := by decide
    have h16 : ¬ unix = ipv6 := by decide
    have hp : (satosa_from ntop saddr slen).port = 0 := by
      simp only [satosa_from, hfam, h14, h16, if_true, if_false, inet_ntop_unix]
      split <;> rfl
    simp [to_string, hp]

/-- Claim C7, amended, at the path /tmp/example.sock with port 0 and at
127.0.0.1 port 8080. -/
theorem to_string_spec_witness :
    to_string example_path = ascii "/tmp/example.sock" ∧
    to_string example_ipv4 = ascii "127.0.0.1:8080" :=
  ⟨(to_string_spec ntop_empty example_path).1 rfl,
   ((to_string_spec ntop_empty example_ipv4).2.1 (by decide)).trans (by decide)⟩

/-! ## bind, listen and accept -/

/-- Claim C8, evaluated on the code. `socket::bind` rejects an address of
another family with `EFAULT`, issues no call and leaves the handle as it was.
`socket_base::bind(sockaddress)` has no such test: it always issues the system
call `bind` first, also for the ipv6 address ::1 on an ipv4 handle, where it
returns whatever the system reports and marks the handle bound when the system
accepts the call. -/
theorem bind_family_mismatch (pton : Nat → Bytes → Option Bytes) (ntop : Nat → Bytes → Bytes) :
    (∀ (s : socket) (address : sockaddr_storage) (len : Nat) (os_bind : Except Int Unit),
      address.ss_family ≠ s.m_domain →
      socket.bind s address len os_bind = (.error EFAULT, s, [])) ∧
    (∀ (s : socket_base) (sa : sockaddress) (os_bind : Except Int Unit) (os_sockname : os_name),
      (socket_base.bind pton ntop s sa os_bind os_sockname).2.2.head?
        = some (oscall.bind s.m_sockid (satosa_to pton sa sizeof_sockaddr_storage).1
            (satosa_to pton sa sizeof_sockaddr_storage).2)) ∧
    example_ipv6.d ≠ example_handle4.m_domain ∧
    (∀ e : Int, socket_base.bind pton ntop example_handle4 example_ipv6 (.error e) none
      = (e, example_handle4,
          [oscall.bind 3 (satosa_to pton example_ipv6 128).1 sizeof_sockaddr_in6])) ∧
    (socket_base.bind pton ntop example_handle4 example_ipv6 (.ok ()) none).2.1.m_bound
      = true := by
  refine ⟨fun s address len os_bind h => ?_, fun s sa os_bind os_sockname => ?_, by decide,
    fun e => rfl, rfl⟩
  · have hb : (address.ss_family != s.m_domain) = true := by simpa using h
    simp [socket.bind, hb]
  · cases os_bind with
    | error e => rfl
    | ok u => rfl

/-- Claim C9. Life-cycle guards: `listen` on a handle that is not bound
returns the library-defined condition UNBOUND, issues no call and leaves the
handle as it was; `accept` on a handle that is not listening fails with the
library-defined condition NOLISTEN, issues no call and leaves the handle as it
was. -/
theorem listen_accept_guards (H : socks_hpp) (ntop : Nat → Bytes → Bytes) (s : socket_base)
    (backlog : Int) (os_listen : Except Int Unit) (os_accept : Except Int Int)
    (os : os_wrap) :
    (s.m_bound = false →
      socket_base.listen H s backlog os_listen
        = ({ type := errortype.CLASS, erno := H.UNBOUND }, s, [])) ∧
    (s.m_listening = false →
      socket_base.accept H ntop s os_accept os
        = (.error { type := errortype.CLASS, erno := H.NOLISTEN }, s, [])) := by
  refine ⟨fun h => ?_, fun h => ?_⟩
  · simp [socket_base.listen, h]
  · simp [socket_base.accept, h]

/-- Claim C9 at a fresh handle, whatever the system would answer. -/
theorem listen_accept_guards_witness :
    example_handle4.m_bound = false ∧ example_handle4.m_listening = false ∧
    socket_base.listen example_hpp example_handle4 5 (.ok ())
      = ({ type := errortype.CLASS, erno := 4 }, example_handle4, []) ∧
    socket_base.accept example_hpp ntop_empty example_handle4 (.ok 4) example_os_wrap
      = (.error { type := errortype.CLASS, erno := 6 }, example_handle4, []) :=
  ⟨rfl, rfl,
   (listen_accept_guards example_hpp ntop_empty example_handle4 5 (.ok ()) (.ok 4)
      example_os_wrap).1 rfl,
   (listen_accept_guards example_hpp ntop_empty example_handle4 5 (.ok ()) (.ok 4)
      example_os_wrap).2 rfl⟩

/-! ## accept and the hook chains -/

theorem length_assign_ge {V : Type} (m : stdmap V) (k : Nat) (v : V) :
    m.length ≤ (stdmap.assign m k v).length := by
  induction m with
  | nil => simp [stdmap.assign]
  | cons e rest ih =>
    obtain ⟨k', v'⟩ := e
    simp only [stdmap.assign]
    split
    · simp
    · split
      · simp
      · simpa using ih

theorem length_index_ge {V : Type} (m : stdmap V) (k : Nat) (d : V) :
    m.length ≤ (stdmap.index m k d).2.length := by
  simp only [stdmap.index]
  split
  · exact le_refl _
  · exact length_assign_ge m k d

/-- The constructor `socket_base(int sockfd)` leaves both hook maps empty. -/
theorem wrap_hooks (ntop : Nat → Bytes → Bytes) (sockfd : Int) (os : os_wrap) :
    (socket_base.wrap ntop sockfd os).1.m_presend = [] ∧
    (socket_base.wrap ntop sockfd os).1.m_postrecv = [] := by
  obtain ⟨t, n1, n2⟩ := os
  cases t <;> cases n1 <;> cases n2 <;> exact ⟨rfl, rfl⟩

/-- What a successful `accept` gives the new handle: a pre-send and a
post-receive map of one entry each, under the default index. -/
theorem accept_hooks (H : socks_hpp) (ntop : Nat → Bytes → Bytes) (s : socket_base)
    (newsockid : Int) (os : os_wrap) (h : s.m_listening = true) :
    ∃ c : socket_base,
      (socket_base.accept H ntop s (.ok newsockid) os).1 = .ok c ∧
      c.m_presend = [(H.index, (stdmap.index s.m_presend H.index none).1)] ∧
      c.m_postrecv = [(H.index, (stdmap.index s.m_postrecv H.index none).1)] ∧
      (socket_base.accept H ntop s (.ok newsockid) os).2.1.m_presend
        = (stdmap.index s.m_presend H.index none).2 ∧
      (socket_base.accept H ntop s (.ok newsockid) os).2.1.m_postrecv
        = (stdmap.index s.m_postrecv H.index none).2 := by
  obtain ⟨w1, w2⟩ := wrap_hooks ntop newsockid os
  simp only [socket_base.accept, h]
  refine ⟨_, rfl, ?_, ?_, rfl, rfl⟩
  · show stdmap.assign (socket_base.wrap ntop newsockid os).1.m_presend _ _ = _
    rw [w1]
    rfl
  · show stdmap.assign (socket_base.wrap ntop newsockid os).1.m_postrecv _ _ = _
    rw [w2]
    rfl

/-- Claim C10, evaluated on the code. A listening handle has two pre-send and
two post-receive stages, under the keys 0 and 1. The handle a successful
`accept` returns has one pre-send and one post-receive entry, the one of the
default index, while the parent keeps at least its two: the collections of the
new handle are not the parent's, whatever the default index is. -/
theorem accept_drops_hooks (H : socks_hpp) (ntop : Nat → Bytes → Bytes) (newsockid : Int)
    (os : os_wrap) :
    example_listener.m_presend.length = 2 ∧ example_listener.m_postrecv.length = 2 ∧
    ∃ c : socket_base,
      (socket_base.accept H ntop example_listener (.ok newsockid) os).1 = .ok c ∧
      c.m_presend.length = 1 ∧ c.m_postrecv.length = 1 ∧
      2 ≤ (socket_base.accept H ntop example_listener (.ok newsockid) os).2.1.m_presend.length ∧
      2 ≤ (socket_base.accept H ntop example_listener (.ok newsockid) os).2.1.m_postrecv.length ∧
      c.m_presend ≠ example_listener.m_presend ∧
      c.m_presend ≠ (socket_base.accept H ntop example_listener (.ok newsockid) os).2.1.m_presend ∧
      c.m_postrecv ≠ example_listener.m_postrecv ∧
      c.m_postrecv
        ≠ (socket_base.accept H ntop example_listener (.ok newsockid) os).2.1.m_postrecv := by
  obtain ⟨c, hc, hpre, hpost, hppre, hppost⟩ :=
    accept_hooks H ntop example_listener newsockid os rfl
  have l1 : c.m_presend.length = 1 := by rw [hpre]; rfl
  have l2 : c.m_postrecv.length = 1 := by rw [hpost]; rfl
  have l3 : 2 ≤ (socket_base.accept H ntop example_listener (.ok newsockid)
      os).2.1.m_presend.length := by
    rw [hppre]; exact length_index_ge example_listener.m_presend H.index none
  have l4 : 2 ≤ (socket_base.accept H ntop example_listener (.ok newsockid)
      os).2.1.m_postrecv.length := by
    rw [hppost]; exact length_index_ge example_listener.m_postrecv H.index none
  refine ⟨rfl, rfl, c, hc, l1, l2, l3, l4, ?_, ?_, ?_, ?_⟩
  · intro e
    have := congrArg List.length e
    rw [l1] at this
    exact absurd this (by decide)
  · intro e
    have := congrArg List.length e
    rw [l1] at this
    omega
  · intro e
    have := congrArg List.length e
    rw [l2] at this
    exact absurd this (by decide)
  · intro e
    have := congrArg List.length e
    rw [l2] at this
    omega

/-! ## The validity flag over sequences of calls -/

theorem setlocinfo_flags (ntop : Nat → Bytes → Bytes) (s : socket_base) (os : os_name) :
    (socket_base.setlocinfo ntop s os).2.m_protocol = s.m_protocol ∧
    (socket_base.setlocinfo ntop s os).2.m_valid = s.m_valid ∧
    (socket_base.setlocinfo ntop s os).2.m_bound = s.m_bound ∧
    (socket_base.setlocinfo ntop s os).2.m_listening = s.m_listening := by
  cases os <;> exact ⟨rfl, rfl, rfl, rfl⟩

theorem setreminfo_flags (ntop : Nat → Bytes → Bytes) (s : socket_base) (os : os_name) :
    (socket_base.setreminfo ntop s os).2.m_protocol = s.m_protocol ∧
    (socket_base.setreminfo ntop s os).2.m_valid = s.m_valid ∧
    (socket_base.setreminfo ntop s os).2.m_bound = s.m_bound ∧
    (socket_base.setreminfo ntop s os).2.m_listening = s.m_listening := by
  cases os <;> exact ⟨rfl, rfl, rfl, rfl⟩

theorem sendto_sock (H : socks_hpp) (pton : Nat → Bytes → Option Bytes) (s : socket_base)
    (pkt : packet) (flags : Int) (os_send : Except Int Nat) :
    (socket_base.sendto H pton s pkt flags os_send).sock = s := by
  simp only [socket_base.sendto]
  split
  · rfl
  · split
    · rfl
    · split <;> rfl

theorem recvfrom_sock (H : socks_hpp) (ntop : Nat → Bytes → Bytes) (s : socket_base)
    (pkt : packet) (flags : Int) (n : Nat) (os : os_recv) :
    (socket_base.recvfrom H ntop s pkt flags n os).sock = s ∨
    (socket_base.recvfrom H ntop s pkt flags n os).sock = { s with m_valid := false } := by
  simp only [socket_base.recvfrom]
  split
  · split <;> exact Or.inl rfl
  · split
    · split
      · exact Or.inr rfl
      · exact Or.inl rfl
    · split
      · exact Or.inr rfl
      · split <;> exact Or.inl rfl

theorem valid_inv_apply (H : socks_hpp) (pton : Nat → Bytes → Option Bytes)
    (ntop : Nat → Bytes → Bytes) (t : Nat) (s : socket_base) (h : history) (o : op)
    (inv : valid_inv t s h) :
    valid_inv t (op.apply H pton ntop s h o).1 (op.apply H pton ntop s h o).2 := by
  obtain ⟨hp, hb, hl, hv⟩ := inv
  cases o with
  | bind sa os_bind os_sockname =>
    cases os_bind with
    | error e => exact ⟨hp, hb, hl, hv⟩
    | ok u =>
      obtain ⟨f1, f2, f3, f4⟩ := setlocinfo_flags ntop s os_sockname
      simp only [op.apply, socket_base.bind, Except.toBool, if_true]
      refine ⟨?_, fun _ => rfl, fun _ => rfl, ?_⟩
      · show (if connectionless (socket_base.setlocinfo ntop s os_sockname).2.m_protocol then _
          else _ : socket_base).m_protocol = t
        split
        · exact f1.trans hp
        · exact f1.trans hp
      · show (if connectionless (socket_base.setlocinfo ntop s os_sockname).2.m_protocol then _
          else _ : socket_base).m_valid = true → _
        rw [f1, hp]
        by_cases hc : connectionless t = true
        · intro _
          exact Or.inr (Or.inr ⟨hc, rfl⟩)
        · rw [if_neg hc, f2]
          intro hval
          rcases hv hval with h1 | h1 | ⟨h1, _⟩
          · exact Or.inl h1
          · exact Or.inr (Or.inl h1)
          · exact absurd h1 hc
  | listen backlog os_listen =>
    cases hbd : s.m_bound with
    | false =>
      simp only [op.apply, socket_base.listen, hbd, Bool.not_false, if_true, Bool.false_and,
        Bool.false_eq_true, if_false]
      exact ⟨hp, fun h' => hb (hbd ▸ h'), hl, hv⟩
    | true =>
      cases os_listen with
      | error e =>
        simp only [op.apply, socket_base.listen, hbd, Bool.not_true, Bool.false_eq_true,
          if_false, Except.toBool, Bool.and_false]
        exact ⟨hp, fun _ => hb hbd, hl, hv⟩
      | ok u =>
        simp only [op.apply, socket_base.listen, hbd, Bool.not_true, Bool.false_eq_true,
          if_false, Except.toBool, Bool.and_true, if_true]
        exact ⟨hp, fun _ => hb hbd, fun _ => hb hbd, fun _ => Or.inr (Or.inl rfl)⟩
  | connect sa os_connect os_sockname os_peername =>
    cases os_connect with
    | error e => exact ⟨hp, hb, hl, hv⟩
    | ok u =>
      obtain ⟨f1, f2, f3, f4⟩ := setlocinfo_flags ntop s os_sockname
      obtain ⟨g1, g2, g3, g4⟩ :=
        setreminfo_flags ntop (socket_base.setlocinfo ntop s os_sockname).2 os_peername
      simp only [op.apply, socket_base.connect, Except.toBool, if_true]
      refine ⟨?_, ?_, hl, fun _ => Or.inl rfl⟩
      · exact g1.trans (f1.trans hp)
      · intro hbnd
        exact hb ((f3.symm.trans g3.symm).trans hbnd)
  | sendto pkt flags os_send =>
    simp only [op.apply, sendto_sock]
    exact ⟨hp, hb, hl, hv⟩
  | recvfrom pkt flags n os =>
    simp only [op.apply]
    rcases recvfrom_sock H ntop s pkt flags n os with e | e
    · rw [e]; exact ⟨hp, hb, hl, hv⟩
    · rw [e]; exact ⟨hp, hb, hl, fun h' => absurd h' (by simp)⟩
  | setpre f index => exact ⟨hp, hb, hl, hv⟩
  | setpost f index => exact ⟨hp, hb, hl, hv⟩

theorem valid_inv_run (H : socks_hpp) (pton : Nat → Bytes → Option Bytes)
    (ntop : Nat → Bytes → Bytes) (t : Nat) (ops : List op) (sh : socket_base × history)
    (inv : valid_inv t sh.1 sh.2) :
    valid_inv t (run_ops H pton ntop sh ops).1 (run_ops H pton ntop sh ops).2 := by
  induction ops generalizing sh with
  | nil => exact inv
  | cons o rest ih => exact ih _ (valid_inv_apply H pton ntop t sh.1 sh.2 o inv)

/-- Claim C11 as stated fails. A stream handle is valid after a successful
`bind` and a successful `listen` although no `connect` call was made; a
datagram handle is valid after a successful `connect` although no `bind` call
was made. -/
theorem valid_state_machine_counterexample :
    ((socket_base.create ipv4 tcp 0 (.ok 3)).1.toOption.map socket_base.valid = some false ∧
      connectionless tcp = false ∧
      (run_ops example_hpp pton_none ntop_empty (example_tcp, history.none)
        example_bind_listen).1.valid = true ∧
      (run_ops example_hpp pton_none ntop_empty (example_tcp, history.none)
        example_bind_listen).2.connect_ok = false) ∧
    (connectionless udp = true ∧
      (run_ops example_hpp pton_none ntop_empty (example_udp, history.none)
        example_connect).1.valid = true ∧
      (run_ops example_hpp pton_none ntop_empty (example_udp, history.none)
        example_connect).2.bind_ok = false) :=
  ⟨⟨rfl, rfl, rfl, rfl⟩, rfl, rfl, rfl⟩

/-- Claim C11, amended. In every state reachable from the constructor
`socket_base(domain, protocol, int)` by any sequence of `bind`, `listen`,
`connect`, `sendto` and `recvfrom` calls and hook registrations, with any
outcomes of the system calls, `valid()` is true only if some `connect` call
has succeeded, or some `listen` call has succeeded (which needs a successful
`bind` before it), or the handle is of a connectionless kind and some `bind`
call has succeeded. So a connectionless handle is invalid unless a `bind` or a
`connect` has succeeded, and a connection-oriented one unless a `connect` or a
`listen` has succeeded; the constructed handle itself is invalid. -/
theorem valid_state_machine (H : socks_hpp) (pton : Nat → Bytes → Option Bytes)
    (ntop : Nat → Bytes → Bytes) (d t : Nat) (p fd : Int) (ops : List op) (s0 : socket_base)
    (h0 : (socket_base.create d t p (.ok fd)).1 = .ok s0) :
    s0.valid = false ∧
    ((run_ops H pton ntop (s0, history.none) ops).1.valid = true →
      (run_ops H pton ntop (s0, history.none) ops).2.connect_ok = true ∨
      (run_ops H pton ntop (s0, history.none) ops).2.listen_ok = true ∨
      (connectionless t = true ∧
        (run_ops H pton ntop (s0, history.none) ops).2.bind_ok = true)) ∧
    ((run_ops H pton ntop (s0, history.none) ops).2.listen_ok = true →
      (run_ops H pton ntop (s0, history.none) ops).2.bind_ok = true) ∧
    (connectionless t = true →
      (run_ops H pton ntop (s0, history.none) ops).1.valid = true →
      (run_ops H pton ntop (s0, history.none) ops).2.bind_ok = true ∨
      (run_ops H pton ntop (s0, history.none) ops).2.connect_ok = true) ∧
    (connectionless t = false →
      (run_ops H pton ntop (s0, history.none) ops).1.valid = true →
      (run_ops H pton ntop (s0, history.none) ops).2.connect_ok = true ∨
      (run_ops H pton ntop (s0, history.none) ops).2.listen_ok = true) := by
  have e0 : s0 = { socket_base.members with m_domain := d, m_protocol := t, m_sockid := fd } := by
    simp only [socket_base.create, Except.ok.injEq] at h0
    exact h0.symm
  have inv0 : valid_inv t s0 history.none := by
    rw [e0]
    exact ⟨rfl, fun h => absurd h Bool.false_ne_true, fun h => absurd h Bool.false_ne_true,
      fun h => absurd h Bool.false_ne_true⟩
  obtain ⟨_, _, hl, hv⟩ := valid_inv_run H pton ntop t ops (s0, history.none) inv0
  refine ⟨by rw [e0]; rfl, hv, hl, fun hc hval => ?_, fun hc hval => ?_⟩
  · rcases hv hval with h1 | h1 | ⟨_, h1⟩
    · exact Or.inr h1
    · exact Or.inl (hl h1)
    · exact Or.inl h1
  · rcases hv hval with h1 | h1 | ⟨h1, _⟩
    · exact Or.inl h1
    · exact Or.inr h1
    · rw [hc] at h1
      exact absurd h1 (by decide)

/-- Claim C11, amended, at a stream handle after a successful `bind` and a
successful `listen`. -/
theorem valid_state_machine_witness :
    (socket_base.create ipv4 tcp 0 (.ok 3)).1 = .ok example_tcp ∧
    example_tcp.valid = false ∧
    (run_ops example_hpp pton_none ntop_empty (example_tcp, history.none)
      example_bind_listen).2.bind_ok = true :=
  have h := valid_state_machine example_hpp pton_none ntop_empty ipv4 tcp 0 3
    example_bind_listen example_tcp rfl
  ⟨rfl, h.1, h.2.2.1 rfl⟩

/-! ## Guards and outcomes of the data transfer calls -/

/-- Claim C12. I/O guards: on a handle that is not valid `sendto` returns the
library-defined condition INVALID, runs no hook and issues no call, and
`recvfrom` returns INVALID whatever the capacity; on a valid handle `recvfrom`
with capacity 0 returns the library-defined condition NOBYTES; in the three
cases no call is issued and the handle and the packet are as they were. -/
theorem io_guards (H : socks_hpp) (pton : Nat → Bytes → Option Bytes)
    (ntop : Nat → Bytes → Bytes) (s : socket_base) (pkt : packet) (flags : Int) (n : Nat)
    (os_send : Except Int Nat) (os : os_recv) :
    (s.m_valid = false →
      socket_base.sendto H pton s pkt flags os_send
        = { err := { type := errortype.CLASS, erno := H.INVALID }, sock := s, calls := [],
            ran := [], pkt := pkt }) ∧
    (s.m_valid = false →
      socket_base.recvfrom H ntop s pkt flags n os
        = { err := { type := errortype.CLASS, erno := H.INVALID }, sock := s, calls := [],
            ran := [], pkt := pkt }) ∧
    (s.m_valid = true →
      socket_base.recvfrom H ntop s pkt flags 0 os
        = { err := { type := errortype.CLASS, erno := H.NOBYTES }, sock := s, calls := [],
            ran := [], pkt := pkt }) := by
  refine ⟨fun h => ?_, fun h => ?_, fun h => ?_⟩
  · simp [socket_base.sendto, h]
  · simp [socket_base.recvfrom, h]
  · simp [socket_base.recvfrom, h]

/-- Claim C12 at a fresh handle (not valid) and at a listening handle (valid)
asked for 0 bytes. -/
theorem io_guards_witness :
    (example_handle4.m_valid = false ∧ example_listener.m_valid = true) ∧
    (socket_base.sendto example_hpp pton_none example_handle4 example_packet 0 (.ok 10)).err
      = { type := errortype.CLASS, erno := 2 } ∧
    (socket_base.recvfrom example_hpp ntop_empty example_handle4 example_packet 0 256
      (.error 11)).err = { type := errortype.CLASS, erno := 2 } ∧
    (socket_base.recvfrom example_hpp ntop_empty example_listener example_packet 0 0
      (.error 11)).err = { type := errortype.CLASS, erno := 1 } := by
  have h1 := io_guards example_hpp pton_none ntop_empty example_handle4 example_packet 0 256
    (.ok 10) (.error 11)
  have h2 := io_guards example_hpp pton_none ntop_empty example_listener example_packet 0 0
    (.ok 10) (.error 11)
  exact ⟨⟨rfl, rfl⟩, by rw [h1.1 rfl]; rfl, by rw [h1.2.1 rfl]; rfl, by rw [h2.2.2 rfl]; rfl⟩

/-- Claim C15. Receive outcome classification: on a valid handle with a
capacity above 0, `recvfrom` issues exactly one system call; when that call
reports 0 bytes the handle becomes invalid and the library-defined condition
CLOSED is returned; when it reports failure the os-reported condition with the
error code is returned, the handle becoming invalid when the code is
connection-reset and staying as it was for every other code; in both cases no
post-receive hook runs. -/
theorem recvfrom_outcomes (H : socks_hpp) (ntop : Nat → Bytes → Bytes) (s : socket_base)
    (pkt : packet) (flags : Int) (n : Nat) (hv : s.m_valid = true) (hn : 0 < n) :
    (∀ os : os_recv, (socket_base.recvfrom H ntop s pkt flags n os).calls
      = [oscall.recvfrom s.m_sockid n flags]) ∧
    (∀ (saddr : sockaddr_storage) (slen : Nat),
      (socket_base.recvfrom H ntop s pkt flags n (.ok ([], saddr, slen))).err
        = { type := errortype.CLASS, erno := H.CLOSED } ∧
      (socket_base.recvfrom H ntop s pkt flags n (.ok ([], saddr, slen))).sock
        = { s with m_valid := false } ∧
      (socket_base.recvfrom H ntop s pkt flags n (.ok ([], saddr, slen))).ran = []) ∧
    (∀ e : Int,
      (socket_base.recvfrom H ntop s pkt flags n (.error e)).err
        = { type := errortype.BSD, erno := e } ∧
      (socket_base.recvfrom H ntop s pkt flags n (.error e)).ran = [] ∧
      (e = ECONNRESET →
        (socket_base.recvfrom H ntop s pkt flags n (.error e)).sock
          = { s with m_valid := false }) ∧
      (e ≠ ECONNRESET → (socket_base.recvfrom H ntop s pkt flags n (.error e)).sock = s)) := by
  have hn0 : (n == 0) = false := by simp; omega
  have hg : (s.m_valid == false || n == 0) = false := by simp [hv, hn0]
  refine ⟨fun os => ?_, fun saddr slen => ?_, fun e => ?_⟩
  · simp only [socket_base.recvfrom, hg, Bool.false_eq_true, if_false]
    split
    · rfl
    · split
      · rfl
      · split <;> rfl
  · simp only [socket_base.recvfrom, hg, Bool.false_eq_true, if_false, List.length_nil, if_true]
    exact ⟨trivial, trivial, trivial⟩
  · simp only [socket_base.recvfrom, hg, Bool.false_eq_true, if_false, true_and]
    refine ⟨fun h => ?_, fun h => ?_⟩
    · exact if_pos h
    · exact if_neg h

/-- Claim C15 at a valid handle asked for 256 bytes: an orderly close, a
connection reset and a timeout. -/
theorem recvfrom_outcomes_witness :
    (example_listener.m_valid = true ∧ 0 < 256) ∧
    (socket_base.recvfrom example_hpp ntop_empty example_listener example_packet 0 256
      (.ok ([], example_any4, 16))).sock.m_valid = false ∧
    (socket_base.recvfrom example_hpp ntop_empty example_listener example_packet 0 256
      (.error 104)).sock.m_valid = false ∧
    (socket_base.recvfrom example_hpp ntop_empty example_listener example_packet 0 256
      (.error 11)).sock.m_valid = true := by
  have h := recvfrom_outcomes example_hpp ntop_empty example_listener example_packet 0 256 rfl
    (by decide)
  refine ⟨⟨rfl, by decide⟩, ?_, ?_, ?_⟩
  · rw [(h.2.1 example_any4 16).2.1]
  · rw [(h.2.2 104).2.2.1 rfl]
  · rw [(h.2.2 11).2.2.2 (by decide)]
    rfl

/-! ## The hook pipelines -/

theorem keys_assign {V : Type} (m : stdmap V) (k : Nat) (v : V) (x : Nat)
    (hx : x ∈ (stdmap.assign m k v).map Prod.fst) : x = k ∨ x ∈ m.map Prod.fst := by
  induction m with
  | nil =>
    simp only [stdmap.assign, List.map_cons, List.map_nil, List.mem_singleton] at hx
    exact Or.inl hx
  | cons e rest ih =>
    obtain ⟨k', v'⟩ := e
    simp only [stdmap.assign] at hx
    split at hx
    · simp only [List.map_cons, List.mem_cons] at hx ⊢
      exact hx
    · split at hx
      · simp only [List.map_cons, List.mem_cons] at hx ⊢
        rcases hx with h | h
        · exact Or.inl h
        · exact Or.inr (Or.inr h)
      · simp only [List.map_cons, List.mem_cons] at hx ⊢
        rcases hx with h | h
        · exact Or.inr (Or.inl h)
        · rcases ih h with h' | h'
          · exact Or.inl h'
          · exact Or.inr (Or.inr h')

theorem assign_sorted {V : Type} (m : stdmap V) (k : Nat) (v : V)
    (hm : (m.map Prod.fst).Pairwise (fun a b => a < b)) :
    ((stdmap.assign m k v).map Prod.fst).Pairwise (fun a b => a < b) := by
  induction m with
  | nil => simp [stdmap.assign]
  | cons e rest ih =>
    obtain ⟨k', v'⟩ := e
    simp only [List.map_cons, List.pairwise_cons] at hm
    obtain ⟨h1, h2⟩ := hm
    simp only [stdmap.assign]
    split
    · rename_i hlt
      simp only [List.map_cons, List.pairwise_cons, List.mem_cons]
      refine ⟨fun a ha => ?_, h1, h2⟩
      rcases ha with ha | ha
      · rw [ha]; exact hlt
      · exact lt_trans hlt (h1 a ha)
    · split
      · rename_i heq
        simp only [List.map_cons, List.pairwise_cons]
        exact ⟨fun a ha => heq ▸ h1 a ha, h2⟩
      · rename_i hnlt hne
        simp only [List.map_cons, List.pairwise_cons]
        refine ⟨fun a ha => ?_, ih h2⟩
        rcases keys_assign rest k v a ha with h | h
        · rw [h]; omega
        · exact h1 a h

theorem foldl_assign_sorted {V : Type} (regs : List (Nat × V)) (acc : stdmap V)
    (hacc : (acc.map Prod.fst).Pairwise (fun a b => a < b)) :
    ((regs.foldl (fun m r => stdmap.assign m r.1 r.2) acc).map Prod.fst).Pairwise
      (fun a b => a < b) := by
  induction regs generalizing acc with
  | nil => exact hacc
  | cons r rest ih => exact ih _ (assign_sorted acc r.1 r.2 hacc)

theorem registered_sorted (regs : List (Nat × hook)) :
    ((registered regs).map Prod.fst).Pairwise (fun a b => a < b) :=
  foldl_assign_sorted regs [] List.Pairwise.nil

theorem run_hooks_ran_sublist (m : List (Nat × hook)) (p : packet) :
    (run_hooks m p).ran.Sublist (m.map Prod.fst) := by
  induction m generalizing p with
  | nil => simp [run_hooks]
  | cons e rest ih =>
    obtain ⟨k, f⟩ := e
    cases f with
    | none =>
      simp only [run_hooks, List.map_cons]
      exact List.Sublist.cons _ (ih p)
    | some f =>
      simp only [run_hooks, List.map_cons]
      split
      · simp
      · exact List.Sublist.cons₂ _ (ih _)

theorem run_hooks_pass (m : List (Nat × hook)) (p : packet) (h : passes (live m) p = true) :
    run_hooks m p = { code := none, pkt := chain (live m) p, ran := (live m).map Prod.fst } := by
  induction m generalizing p with
  | nil => rfl
  | cons e rest ih =>
    obtain ⟨k, f⟩ := e
    cases f with
    | none => exact ih p h
    | some f =>
      simp only [live, passes, Bool.and_eq_true, beq_iff_eq] at h
      have h0 : ((f p).1 != 0) = false := by simp [h.1]
      simp only [run_hooks, h0, Bool.false_eq_true, if_false, ih _ h.2, live, chain,
        List.map_cons]

theorem run_hooks_fail (m : List (Nat × hook)) (p : packet)
    (pre post : List (Nat × (packet → Int × packet))) (k : Nat) (f : packet → Int × packet)
    (hm : live m = pre ++ (k, f) :: post) (hp : passes pre p = true)
    (hf : (f (chain pre p)).1 ≠ 0) :
    run_hooks m p = { code := some (f (chain pre p)).1, pkt := (f (chain pre p)).2,
                      ran := pre.map Prod.fst ++ [k] } := by
  induction m generalizing p pre with
  | nil => simp [live] at hm
  | cons e rest ih =>
    obtain ⟨k', g⟩ := e
    cases g with
    | none => exact ih p pre hm hp hf
    | some g =>
      simp only [live] at hm
      cases pre with
      | nil =>
        simp only [List.nil_append, List.cons.injEq, Prod.mk.injEq] at hm
        obtain ⟨⟨hk, hg⟩, _⟩ := hm
        subst hk hg
        simp only [chain] at hf
        have h0 : ((g p).1 != 0) = true := by simp [hf]
        simp [run_hooks, h0, chain]
      | cons q pre' =>
        simp only [List.cons_append, List.cons.injEq] at hm
        obtain ⟨hq, hrest⟩ := hm
        subst hq
        simp only [passes, Bool.and_eq_true, beq_iff_eq] at hp
        have h0 : ((g p).1 != 0) = false := by simp [hp.1]
        simp only [chain] at hf ⊢
        simp only [run_hooks, h0, Bool.false_eq_true, if_false, ih _ pre' hrest hp.2 hf,
          List.map_cons, List.cons_append]

theorem assign_append {V : Type} (m : stdmap V) (k : Nat) (v : V)
    (h : ∀ x ∈ m.map Prod.fst, x < k) : stdmap.assign m k v = m ++ [(k, v)] := by
  induction m with
  | nil => rfl
  | cons e rest ih =>
    obtain ⟨k', v'⟩ := e
    have hk : k' < k := h k' (by simp)
    have h1 : ¬ k < k' := by omega
    have h2 : ¬ k = k' := by omega
    simp only [stdmap.assign, h1, h2, if_false, List.cons_append, List.cons.injEq, true_and]
    exact ih (fun x hx => h x (by simp only [List.map_cons, List.mem_cons]; exact Or.inr hx))

theorem foldl_assign_ascending {V : Type} (regs : List (Nat × V)) (acc : stdmap V)
    (h : ((acc ++ regs).map Prod.fst).Pairwise (fun a b => a < b)) :
    regs.foldl (fun m r => stdmap.assign m r.1 r.2) acc = acc ++ regs := by
  induction regs generalizing acc with
  | nil => simp
  | cons r rest ih =>
    have hlt : ∀ x ∈ acc.map Prod.fst, x < r.1 := by
      intro x hx
      simp only [List.map_append, List.map_cons, List.pairwise_append] at h
      exact h.2.2 x hx r.1 (by simp)
    simp only [List.foldl_cons]
    rw [assign_append acc r.1 r.2 hlt, ih (acc ++ [(r.1, r.2)]) (by simpa using h)]
    simp

/-- Registrations under strictly increasing keys leave the stages in the order
they were registered in. -/
theorem registered_ascending (regs : List (Nat × hook))
    (h : (regs.map Prod.fst).Pairwise (fun a b => a < b)) : registered regs = regs := by
  have := foldl_assign_ascending regs [] (by simpa using h)
  simpa [registered] using this

theorem chain_data (fs : List (Nat × (packet → Int × packet))) (p : packet)
    (h : ∀ e ∈ fs, ∀ q : packet, (e.2 q).2.data = q.data) : (chain fs p).data = p.data := by
  induction fs generalizing p with
  | nil => rfl
  | cons e rest ih =>
    obtain ⟨k, f⟩ := e
    simp only [chain]
    rw [ih _ (fun e he => h e (List.mem_cons_of_mem _ he))]
    exact h (k, f) (List.mem_cons_self _ _) p

/-- Claim C13 as stated fails. A stage is registered under key 1 (it appends
the byte 1), then a stage under key 0 (it appends the byte 2). `sendto` runs
the stage of key 0 first: the payload 9 reaches the system as 9, 2, 1, not as
9, 1, 2 as the order of registration would give. -/
theorem sendto_pipeline_counterexample :
    example_chain.m_valid = true ∧
    example_chain.m_presend = registered example_regs ∧
    example_regs.map Prod.fst = [1, 0] ∧
    (socket_base.sendto example_hpp pton_none example_chain example_packet9 0 (.ok 3)).ran
      = [0, 1] ∧
    (socket_base.sendto example_hpp pton_none example_chain example_packet9 0 (.ok 3)).calls
      = [oscall.sendto 3 [9, 2, 1] 3 0 none 0] ∧
    (chain (live example_regs) example_packet9).data = [9, 1, 2] :=
  ⟨rfl, rfl, rfl, rfl, rfl, rfl⟩

/-- Claim C13, amended. Pre-send pipeline: on a valid handle `sendto` applies
the non-null pre-send hooks in ascending order of their keys (the order of
registration when the stages were registered under increasing keys), each to
the packet as left by the one before; at the first hook returning a non-zero
value it returns the user-hook condition carrying that value, runs no later
hook and issues no call; when every hook returns 0 the payload left by the
last one is handed to the system in one call. -/
theorem sendto_pipeline (H : socks_hpp) (pton : Nat → Bytes → Option Bytes) (s : socket_base)
    (pkt : packet) (flags : Int) (os_send : Except Int Nat) (regs : List (Nat × hook))
    (hv : s.m_valid = true) (hm : s.m_presend = registered regs) :
    (socket_base.sendto H pton s pkt flags os_send).ran.Pairwise (fun a b => a < b) ∧
    ((regs.map Prod.fst).Pairwise (fun a b => a < b) → s.m_presend = regs) ∧
    (∀ (pre post : List (Nat × (packet → Int × packet))) (k : Nat) (f : packet → Int × packet),
      live s.m_presend = pre ++ (k, f) :: post → passes pre pkt = true →
      (f (chain pre pkt)).1 ≠ 0 →
      (socket_base.sendto H pton s pkt flags os_send).err
        = { type := errortype.USER, erno := (f (chain pre pkt)).1 } ∧
      (socket_base.sendto H pton s pkt flags os_send).calls = [] ∧
      (socket_base.sendto H pton s pkt flags os_send).ran = pre.map Prod.fst ++ [k] ∧
      (socket_base.sendto H pton s pkt flags os_send).pkt = (f (chain pre pkt)).2) ∧
    (passes (live s.m_presend) pkt = true →
      (socket_base.sendto H pton s pkt flags os_send).ran = (live s.m_presend).map Prod.fst ∧
      (socket_base.sendto H pton s pkt flags os_send).pkt = chain (live s.m_presend) pkt ∧
      ∃ (dest : Option sockaddr_storage) (destlen : Nat),
        (socket_base.sendto H pton s pkt flags os_send).calls
          = [oscall.sendto s.m_sockid (chain (live s.m_presend) pkt).data
              (chain (live s.m_presend) pkt).data.length flags dest destlen]) := by
  have hvf : (s.m_valid == false) = false := by simp [hv]
  refine ⟨?_, fun h => ?_, fun pre post k f hl hp hf => ?_, fun hp => ?_⟩
  · have hsub : (socket_base.sendto H pton s pkt flags os_send).ran.Sublist
        (s.m_presend.map Prod.fst) := by
      simp only [socket_base.sendto, hvf, Bool.false_eq_true, if_false]
      split
      · exact run_hooks_ran_sublist _ _
      · split <;> exact run_hooks_ran_sublist _ _
    exact List.Pairwise.sublist hsub (hm ▸ registered_sorted regs)
  · rw [hm]; exact registered_ascending regs h
  · have e := run_hooks_fail s.m_presend pkt pre post k f hl hp hf
    simp only [socket_base.sendto, hvf, Bool.false_eq_true, if_false, e]
    exact ⟨trivial, trivial, trivial, trivial⟩
  · have e := run_hooks_pass s.m_presend pkt hp
    simp only [socket_base.sendto, hvf, Bool.false_eq_true, if_false, e]
    cases os_send with
    | error c =>
      refine ⟨rfl, rfl, ?_⟩
      by_cases hc : connectionless s.m_protocol = true
      · simp only [hc, Bool.not_true, Bool.false_eq_true, if_false]
        exact ⟨_, _, rfl⟩
      · simp only [hc, Bool.not_false, if_true]
        exact ⟨_, _, rfl⟩
    | ok c =>
      refine ⟨rfl, rfl, ?_⟩
      by_cases hc : connectionless s.m_protocol = true
      · simp only [hc, Bool.not_true, Bool.false_eq_true, if_false]
        exact ⟨_, _, rfl⟩
      · simp only [hc, Bool.not_false, if_true]
        exact ⟨_, _, rfl⟩

/-- Claim C13, amended, at three stages under the keys 0, 1, 2 of which the
second rejects with the code 7: the stages of keys 0 and 1 run, the condition
carries 7 and nothing is sent. -/
theorem sendto_pipeline_witness :
    (example_chain_reject.m_valid = true ∧
      example_chain_reject.m_presend = registered example_regs_reject) ∧
    (socket_base.sendto example_hpp pton_none example_chain_reject example_packet9 0
      (.ok 2)).err = { type := errortype.USER, erno := 7 } ∧
    (socket_base.sendto example_hpp pton_none example_chain_reject example_packet9 0
      (.ok 2)).calls = [] ∧
    (socket_base.sendto example_hpp pton_none example_chain_reject example_packet9 0
      (.ok 2)).ran = [0, 1] := by
  have h := (sendto_pipeline example_hpp pton_none example_chain_reject example_packet9 0
    (.ok 2) example_regs_reject rfl rfl).2.2.1 [(0, hook_tag 1)] [(2, hook_tag 3)] 1
    (hook_reject 7) rfl rfl (by decide)
  exact ⟨⟨rfl, rfl⟩, h.1.trans rfl, h.2.1, h.2.2.1.trans rfl⟩

theorem received_buffer (d rx : Bytes) (n : Nat) :
    resize (memcpy (resize d n) 0 rx rx.length) rx.length = rx := by
  simp only [resize, memcpy, List.take_zero, List.nil_append, List.take_length, Nat.zero_add,
    List.append_assoc]
  exact List.take_left' rfl

/-- Claim C14 as stated fails. A stage is registered under key 1 (it appends
the byte 1), then a stage under key 0 (it appends the byte 2). After a receive
of the byte 9, `recvfrom` runs the stage of key 1 first and delivers 9, 1, 2;
the reverse of the order of registration would run the stage of key 0 first
and deliver 9, 2, 1. -/
theorem recvfrom_pipeline_counterexample :
    example_chain.m_valid = true ∧
    example_chain.m_postrecv = registered example_regs ∧
    example_regs.map Prod.fst = [1, 0] ∧
    (socket_base.recvfrom example_hpp ntop_empty example_chain example_packet 0 256
      (.ok ([9], example_any4, 16))).ran = [1, 0] ∧
    (socket_base.recvfrom example_hpp ntop_empty example_chain example_packet 0 256
      (.ok ([9], example_any4, 16))).pkt.data = [9, 1, 2] ∧
    (chain (live example_regs.reverse) example_packet9).data = [9, 2, 1] :=
  ⟨rfl, rfl, rfl, rfl, rfl, rfl⟩

/-- Claim C14, amended. Post-receive pipeline: on a valid handle, after a
receive of a positive number of bytes, `recvfrom` applies the non-null
post-receive hooks in descending order of their keys (the reverse of the order
of registration when the stages were registered under increasing keys), from
the packet holding the received bytes and the decoded sender; at the first hook
returning a non-zero value it returns the user-hook condition carrying that
value and runs no further hook, and the packet as the hooks that ran left it is
delivered through the packet overload and its payload through the byte-vector
overload: the received bytes themselves when those hooks leave the payload
alone. -/
theorem recvfrom_pipeline (H : socks_hpp) (ntop : Nat → Bytes → Bytes) (s : socket_base)
    (pkt : packet) (flags : Int) (n : Nat) (rx : Bytes) (saddr : sockaddr_storage) (slen : Nat)
    (regs : List (Nat × hook))
    (hv : s.m_valid = true) (hn : 0 < n) (hrx : 0 < rx.length)
    (hm : s.m_postrecv = registered regs) :
    (socket_base.recvfrom H ntop s pkt flags n (.ok (rx, saddr, slen))).calls
      = [oscall.recvfrom s.m_sockid n flags] ∧
    (socket_base.recvfrom H ntop s pkt flags n (.ok (rx, saddr, slen))).ran.Pairwise
      (fun a b => a > b) ∧
    ((regs.map Prod.fst).Pairwise (fun a b => a < b) → s.m_postrecv.reverse = regs.reverse) ∧
    (∀ (pre post : List (Nat × (packet → Int × packet))) (k : Nat) (f : packet → Int × packet),
      live s.m_postrecv.reverse = pre ++ (k, f) :: post →
      passes pre { data := rx, rem := satosa_from ntop saddr slen } = true →
      (f (chain pre { data := rx, rem := satosa_from ntop saddr slen })).1 ≠ 0 →
      (socket_base.recvfrom H ntop s pkt flags n (.ok (rx, saddr, slen))).err
        = { type := errortype.USER,
            erno := (f (chain pre { data := rx, rem := satosa_from ntop saddr slen })).1 } ∧
      (socket_base.recvfrom H ntop s pkt flags n (.ok (rx, saddr, slen))).ran
        = pre.map Prod.fst ++ [k] ∧
      (socket_base.recvfrom H ntop s pkt flags n (.ok (rx, saddr, slen))).pkt
        = (f (chain pre { data := rx, rem := satosa_from ntop saddr slen })).2 ∧
      (socket_base.recvfrom_vector H ntop s flags n (.ok (rx, saddr, slen))).1.err
        = { type := errortype.USER,
            erno := (f (chain pre { data := rx, rem := satosa_from ntop saddr slen })).1 } ∧
      (socket_base.recvfrom_vector H ntop s flags n (.ok (rx, saddr, slen))).2
        = (f (chain pre { data := rx, rem := satosa_from ntop saddr slen })).2.data ∧
      ((∀ e ∈ pre ++ [(k, f)], ∀ q : packet, (e.2 q).2.data = q.data) →
        (socket_base.recvfrom H ntop s pkt flags n (.ok (rx, saddr, slen))).pkt.data = rx ∧
        (socket_base.recvfrom_vector H ntop s flags n (.ok (rx, saddr, slen))).2 = rx)) ∧
    (passes (live s.m_postrecv.reverse) { data := rx, rem := satosa_from ntop saddr slen } = true →
      (socket_base.recvfrom H ntop s pkt flags n (.ok (rx, saddr, slen))).err
        = { type := errortype.CLASS, erno := 0 } ∧
      (socket_base.recvfrom H ntop s pkt flags n (.ok (rx, saddr, slen))).ran
        = (live s.m_postrecv.reverse).map Prod.fst ∧
      (socket_base.recvfrom H ntop s pkt flags n (.ok (rx, saddr, slen))).pkt
        = chain (live s.m_postrecv.reverse) { data := rx, rem := satosa_from ntop saddr slen } ∧
      (socket_base.recvfrom_vector H ntop s flags n (.ok (rx, saddr, slen))).2
        = (chain (live s.m_postrecv.reverse)
            { data := rx, rem := satosa_from ntop saddr slen }).data) := by
  have hn0 : (n == 0) = false := by simp; omega
  have hg : (s.m_valid == false || n == 0) = false := by simp [hv, hn0]
  have hr0 : ¬ rx.length = 0 := by omega
  -- the shape of the call for any packet the caller hands in
  have shape : ∀ p0 : packet,
      socket_base.recvfrom H ntop s p0 flags n (.ok (rx, saddr, slen))
        = (match (run_hooks s.m_postrecv.reverse
              { data := rx, rem := satosa_from ntop saddr slen }).code with
          | some c =>
            { err := { type := errortype.USER, erno := c }, sock := s,
              calls := [oscall.recvfrom s.m_sockid n flags],
              ran := (run_hooks s.m_postrecv.reverse
                { data := rx, rem := satosa_from ntop saddr slen }).ran,
              pkt := (run_hooks s.m_postrecv.reverse
                { data := rx, rem := satosa_from ntop saddr slen }).pkt }
          | none =>
            { err := { type := errortype.CLASS, erno := 0 }, sock := s,
              calls := [oscall.recvfrom s.m_sockid n flags],
              ran := (run_hooks s.m_postrecv.reverse
                { data := rx, rem := satosa_from ntop saddr slen }).ran,
              pkt := (run_hooks s.m_postrecv.reverse
                { data := rx, rem := satosa_from ntop saddr slen }).pkt }) := by
    intro p0
    simp only [socket_base.recvfrom, hg, Bool.false_eq_true, if_false, hr0, received_buffer]
  have hsorted : ((s.m_postrecv.reverse).map Prod.fst).Pairwise (fun a b => a > b) := by
    rw [List.map_reverse, List.pairwise_reverse, hm]
    exact registered_sorted regs
  refine ⟨?_, ?_, fun h => ?_, fun pre post k f hl hp hf => ?_, fun hp => ?_⟩
  · rw [shape]
    split <;> rfl
  · have hsub : (socket_base.recvfrom H ntop s pkt flags n (.ok (rx, saddr, slen))).ran.Sublist
        ((s.m_postrecv.reverse).map Prod.fst) := by
      rw [shape]
      split <;> exact run_hooks_ran_sublist _ _
    exact List.Pairwise.sublist hsub hsorted
  · rw [hm, registered_ascending regs h]
  · have e := run_hooks_fail s.m_postrecv.reverse _ pre post k f hl hp hf
    have e1 := shape pkt
    have e2 := shape { data := [], rem := sockaddress.new }
    rw [e] at e1 e2
    simp only [socket_base.recvfrom_vector]
    rw [e1, e2]
    refine ⟨rfl, rfl, rfl, rfl, rfl, fun hkeep => ?_⟩
    have hd : (f (chain pre { data := rx, rem := satosa_from ntop saddr slen })).2.data = rx := by
      rw [hkeep (k, f) (by simp), chain_data pre _ (fun e he => hkeep e (by simp [he]))]
    exact ⟨hd, hd⟩
  · have e := run_hooks_pass s.m_postrecv.reverse _ hp
    have e1 := shape pkt
    have e2 := shape { data := [], rem := sockaddress.new }
    rw [e] at e1 e2
    simp only [socket_base.recvfrom_vector]
    rw [e1, e2]
    exact ⟨rfl, rfl, rfl, rfl⟩

/-- Claim C14, amended, at three stages under the keys 0, 1, 2 of which the
second rejects with the code 7, after a receive of the byte 9: the stages of
keys 2 and 1 run, the condition carries 7, and the caller gets the payload as
the stage of key 2 left it. -/
theorem recvfrom_pipeline_witness :
    (example_chain_reject.m_valid = true ∧ 0 < 256 ∧ 0 < [9].length ∧
      example_chain_reject.m_postrecv = registered example_regs_reject) ∧
    (socket_base.recvfrom example_hpp ntop_empty example_chain_reject example_packet 0 256
      (.ok ([9], example_any4, 16))).err = { type := errortype.USER, erno := 7 } ∧
    (socket_base.recvfrom example_hpp ntop_empty example_chain_reject example_packet 0 256
      (.ok ([9], example_any4, 16))).ran = [2, 1] ∧
    (socket_base.recvfrom_vector example_hpp ntop_empty example_chain_reject 0 256
      (.ok ([9], example_any4, 16))).2 = [9, 3] := by
  have h := (recvfrom_pipeline example_hpp ntop_empty example_chain_reject example_packet 0 256
    [9] example_any4 16 example_regs_reject rfl (by decide) (by decide) rfl).2.2.2.1
    [(2, hook_tag 3)] [(0, hook_tag 1)] 1 (hook_reject 7) rfl rfl (by decide)
  exact ⟨⟨rfl, by decide, by decide, rfl⟩, h.1.trans rfl, h.2.1.trans rfl, h.2.2.2.2.1.trans rfl⟩

/-! ## One send call on the hook-carrying path -/

/-- Claim C17, evaluated on the code. On a valid handle whose pre-send hooks
all return 0, `sendto` issues the system call once, for the whole payload, and
returns the code 0 whenever that call does not fail, whatever number of bytes
the system reports as sent: also when it took only a part of the payload. -/
theorem sendto_single_call (H : socks_hpp) (pton : Nat → Bytes → Option Bytes)
    (s : socket_base) (pkt : packet) (flags : Int) (br : Nat)
    (hv : s.m_valid = true) (hp : passes (live s.m_presend) pkt = true) :
    (socket_base.sendto H pton s pkt flags (.ok br)).err
      = { type := errortype.CLASS, erno := 0 } ∧
    (socket_base.sendto H pton s pkt flags (.ok br)).calls.length = 1 := by
  have hvf : (s.m_valid == false) = false := by simp [hv]
  have e := run_hooks_pass s.m_presend pkt hp
  simp only [socket_base.sendto, hvf, Bool.false_eq_true, if_false, e]
  exact ⟨trivial, rfl⟩

/-- Claim C17 on the code, at a payload of ten bytes of which the system takes
four: one call, and the code 0. -/
theorem sendto_single_call_witness :
    (example_connected.m_valid = true ∧
      passes (live example_connected.m_presend) example_packet = true) ∧
    example_packet.data.length = 10 ∧
    (socket_base.sendto example_hpp pton_none example_connected example_packet 0 (.ok 4)).err
      = { type := errortype.CLASS, erno := 0 } ∧
    (socket_base.sendto example_hpp pton_none example_connected example_packet 0 (.ok 4)).calls
      = [oscall.sendto 3 [1, 2, 3, 4, 5, 6, 7, 8, 9, 10] 10 0 none 0] :=
  ⟨⟨rfl, rfl⟩, rfl,
    (sendto_single_call example_hpp pton_none example_connected example_packet 0 4 rfl rfl).1,
    rfl⟩

/-! ## The send loop of `socket` -/

theorem send_loop_calls (len : Nat) (call : Nat → Nat → oscall) (sent : Nat)
    (answers : List (Except Int Nat)) :
    (socket.send_loop len call sent answers).calls
      = (List.range (socket.send_loop len call sent answers).calls.length).map
          (fun i => call (sent + oksum (answers.take i))
            (len - (sent + oksum (answers.take i)))) := by
  induction answers generalizing sent with
  | nil =>
    simp only [socket.send_loop]
    split <;> rfl
  | cons a rest ih =>
    simp only [socket.send_loop]
    split
    · cases a with
      | error e => simp [oksum, List.range_succ]
      | ok r =>
        simp only [List.length_cons, List.range_succ_eq_map, List.map_cons, List.take_zero, oksum,
          Nat.add_zero, List.map_map, List.cons.injEq, true_and]
        have h := ih (sent + r)
        rw [h]
        simp only [List.length_map, List.length_range]
        apply List.map_congr_left
        intro i _
        simp only [Function.comp, List.take_succ_cons, oksum, Nat.add_assoc]
    · rfl

theorem send_loop_returned (len : Nat) (call : Nat → Nat → oscall) (sent : Nat)
    (answers : List (Except Int Nat)) (hs : sent ≤ len)
    (hc : send_contract len sent answers = true)
    (hr : (socket.send_loop len call sent answers).outcome = some (.ok ())) :
    sent + oksum (answers.take (socket.send_loop len call sent answers).calls.length) = len ∧
    (socket.send_loop len call sent answers).sent = len := by
  induction answers generalizing sent with
  | nil =>
    simp only [socket.send_loop] at hr ⊢
    split at hr
    · simp at hr
    · rename_i h
      simp only [h, if_false, List.length_nil, List.take_nil, oksum]
      omega
  | cons a rest ih =>
    simp only [socket.send_loop] at hr ⊢
    by_cases h : sent < len
    · simp only [h, if_true] at hr ⊢
      cases a with
      | error e => simp at hr
      | ok r =>
        simp only [send_contract, h, if_true, Bool.and_eq_true, decide_eq_true_eq] at hc
        have := ih (sent + r) (by omega) hc.2 hr
        simp only [List.length_cons, List.take_succ_cons, oksum]
        omega
    · simp only [h, if_false, List.length_nil, List.take_zero, oksum]
      omega

theorem oksum_map_ok (counts : List Nat) : oksum (counts.map Except.ok) = counts.sum := by
  induction counts with
  | nil => rfl
  | cons c rest ih => simp [oksum, ih]

theorem send_loop_failure (len : Nat) (call : Nat → Nat → oscall) (sent : Nat) (counts : List Nat)
    (e : Int) (post : List (Except Int Nat)) (h : sent + counts.sum < len) :
    (socket.send_loop len call sent (counts.map Except.ok ++ .error e :: post)).outcome
      = some (.error e) ∧
    (socket.send_loop len call sent (counts.map Except.ok ++ .error e :: post)).calls.length
      = counts.length + 1 := by
  induction counts generalizing sent with
  | nil =>
    have hs : sent < len := by simpa using h
    simp [socket.send_loop, hs]
  | cons c rest ih =>
    have hs : sent < len := by simp only [List.sum_cons] at h; omega
    have := ih (sent + c) (by simp only [List.sum_cons] at h; omega)
    simp only [List.map_cons, List.cons_append, socket.send_loop, hs, if_true, List.length_cons]
    exact ⟨this.1, congrArg (· + 1) this.2⟩

/-- Claim C16. Partial-send loop of `socket::send`, in the connected and in
the addressed overload: every system call is given the part of the payload not
sent yet (offset: the total of the counts reported so far; length: the payload
length less that total); when the operation returns, the counts reported add up
to the payload length (a count being, by the contract of the system call, at
most the length the call was given); and the first call that reports failure
ends the operation with the os-reported condition, no further call being
issued. -/
theorem send_partial_loop (s : socket) (data : Bytes) (flags : Nat) (toAddr : sockaddr_storage)
    (addrLen : Nat) (answers : List (Except Int Nat)) :
    ((socket.send s data flags answers).calls
        = (List.range (socket.send s data flags answers).calls.length).map
            (fun i => oscall.send s.m_sockFD (data.drop (oksum (answers.take i)))
              (data.length - oksum (answers.take i)) (flags ||| MSG_NOSIGNAL)) ∧
      (send_contract data.length 0 answers = true →
        (socket.send s data flags answers).outcome = some (.ok ()) →
        oksum (answers.take (socket.send s data flags answers).calls.length) = data.length) ∧
      (∀ (counts : List Nat) (e : Int) (post : List (Except Int Nat)),
        answers = counts.map Except.ok ++ .error e :: post → counts.sum < data.length →
        (socket.send s data flags answers).outcome = some (.error e) ∧
        (socket.send s data flags answers).calls.length = counts.length + 1)) ∧
    ((socket.send_to s data toAddr addrLen flags answers).calls
        = (List.range (socket.send_to s data toAddr addrLen flags answers).calls.length).map
            (fun i => oscall.sendto s.m_sockFD (data.drop (oksum (answers.take i)))
              (data.length - oksum (answers.take i)) (flags ||| MSG_NOSIGNAL) (some toAddr)
              addrLen) ∧
      (send_contract data.length 0 answers = true →
        (socket.send_to s data toAddr addrLen flags answers).outcome = some (.ok ()) →
        oksum (answers.take (socket.send_to s data toAddr addrLen flags answers).calls.length)
          = data.length) ∧
      (∀ (counts : List Nat) (e : Int) (post : List (Except Int Nat)),
        answers = counts.map Except.ok ++ .error e :: post → counts.sum < data.length →
        (socket.send_to s data toAddr addrLen flags answers).outcome = some (.error e) ∧
        (socket.send_to s data toAddr addrLen flags answers).calls.length
          = counts.length + 1)) := by
  refine ⟨⟨?_, fun hc hr => ?_, fun counts e post ha hlt => ?_⟩,
    ⟨?_, fun hc hr => ?_, fun counts e post ha hlt => ?_⟩⟩
  · have h := send_loop_calls data.length
      (fun off n => oscall.send s.m_sockFD (data.drop off) n (flags ||| MSG_NOSIGNAL)) 0 answers
    simp only [Nat.zero_add] at h
    exact h
  · have h := (send_loop_returned data.length _ 0 answers (Nat.zero_le _) hc hr).1
    simp only [Nat.zero_add] at h
    exact h
  · subst ha
    exact send_loop_failure data.length _ 0 counts e post (by omega)
  · have h := send_loop_calls data.length
      (fun off n => oscall.sendto s.m_sockFD (data.drop off) n (flags ||| MSG_NOSIGNAL)
        (some toAddr) addrLen) 0 answers
    simp only [Nat.zero_add] at h
    exact h
  · have h := (send_loop_returned data.length _ 0 answers (Nat.zero_le _) hc hr).1
    simp only [Nat.zero_add] at h
    exact h
  · subst ha
    exact send_loop_failure data.length _ 0 counts e post (by omega)

/-- Claim C16 at a payload of ten bytes: the system takes four bytes, then
six; and the system takes four bytes, then reports the error 32. -/
theorem send_partial_loop_witness :
    (send_contract example_payload.length 0 [.ok 4, .ok 6] = true ∧
      (socket.send example_socket example_payload 0 [.ok 4, .ok 6]).outcome = some (.ok ())) ∧
    (socket.send example_socket example_payload 0 [.ok 4, .ok 6]).calls
      = [oscall.send 3 [1, 2, 3, 4, 5, 6, 7, 8, 9, 10] 10 16384,
         oscall.send 3 [5, 6, 7, 8, 9, 10] 6 16384] ∧
    oksum [.ok 4, .ok 6] = 10 ∧
    (socket.send example_socket example_payload 0 [.ok 4, .error 32, .ok 6]).outcome
      = some (.error 32) ∧
    (socket.send example_socket example_payload 0 [.ok 4, .error 32, .ok 6]).calls.length
      = 2 := by
  have h := (send_partial_loop example_socket example_payload 0 example_any4 16
    [.ok 4, .ok 6]).1
  have hf := (send_partial_loop example_socket example_payload 0 example_any4 16
    [.ok 4, .error 32, .ok 6]).1.2.2 [4] 32 [.ok 6] rfl (by decide)
  exact ⟨⟨rfl, rfl⟩, h.1.trans rfl, h.2.1 rfl rfl, hf.1, hf.2⟩

/-! ## Move and release of a `socket` -/

/-- Claim C18 as stated fails. Both handles own a resource (descriptors 4 and
3). After the move assignment of the source into the destination, the
destruction of the source is not without effect: it shuts down and closes
descriptor 4, the resource the destination owned before. -/
theorem move_release_counterexample :
    example_socket_other.m_validFD = true ∧
    socket.destroy example_address_hpp
        (socket.move_assign example_socket_other example_socket).2 (.ok (example_any4, 16))
      = (.ok (), [oscall.getsockname 4, oscall.shutdown 4 SHUT_RDWR, oscall.close 4]) ∧
    (socket.destroy example_address_hpp
        (socket.move_assign example_socket_other example_socket).2
        (.ok (example_any4, 16))).2 ≠ [] :=
  ⟨rfl, rfl, by
    have e : (socket.destroy example_address_hpp
        (socket.move_assign example_socket_other example_socket).2 (.ok (example_any4, 16))).2
        = [oscall.getsockname 4, oscall.shutdown 4 SHUT_RDWR, oscall.close 4] := rfl
    rw [e]
    exact List.cons_ne_nil _ _⟩

/-- Claim C18, amended. After a move construction, and after a move assignment
into a handle that owns no resource, the destruction of the source issues no
call; after a move assignment into a handle that owns a resource the source
has taken that resource over, and its destruction does what the destruction of
the destination would have done before. In every case the destination is in
the state the source had, so its destruction does what the destruction of the
source would have done before the move: when the source owned its resource and
the local-address query succeeds, one shutdown and one close, on that
resource. -/
theorem move_release (A : address_hpp) (s d : socket)
    (os : Except Int (sockaddr_storage × Nat)) :
    socket.destroy A (socket.move s).2 os = (.ok (), []) ∧
    socket.destroy A (socket.move s).1 os = socket.destroy A s os ∧
    (d.m_validFD = false → socket.destroy A (socket.move_assign d s).2 os = (.ok (), [])) ∧
    socket.destroy A (socket.move_assign d s).2 os = socket.destroy A d os ∧
    socket.destroy A (socket.move_assign d s).1 os = socket.destroy A s os ∧
    (s.m_validFD = true → ∀ loc : sockaddr_storage × Nat,
      (socket.destroy A s (.ok loc)).1 = .ok () ∧
      ((socket.destroy A s (.ok loc)).2
          = [oscall.getsockname s.m_sockFD, oscall.shutdown s.m_sockFD SHUT_RDWR,
              oscall.close s.m_sockFD] ∨
        ∃ path : Bytes, (socket.destroy A s (.ok loc)).2
          = [oscall.getsockname s.m_sockFD, oscall.shutdown s.m_sockFD SHUT_RDWR,
              oscall.close s.m_sockFD, oscall.unlink path])) := by
  refine ⟨rfl, rfl, fun h => ?_, rfl, rfl, fun h loc => ?_⟩
  · simp [socket.move_assign, socket.destroy, h]
  · simp only [socket.destroy, h, if_true]
    split
    · split
      · exact ⟨rfl, Or.inr ⟨_, rfl⟩⟩
      · exact ⟨rfl, Or.inl rfl⟩
    · exact ⟨rfl, Or.inl rfl⟩

/-- Claim C18, amended, at a source that owns descriptor 3: after the move
construction the destruction of the source issues no call and the destruction
of the new handle shuts down and closes descriptor 3. -/
theorem move_release_witness :
    example_socket.m_validFD = true ∧
    socket.destroy example_address_hpp (socket.move example_socket).2 (.ok (example_any4, 16))
      = (.ok (), []) ∧
    socket.destroy example_address_hpp (socket.move example_socket).1 (.ok (example_any4, 16))
      = (.ok (), [oscall.getsockname 3, oscall.shutdown 3 SHUT_RDWR, oscall.close 3]) := by
  have h := move_release example_address_hpp example_socket example_socket_other
    (.ok (example_any4, 16))
  exact ⟨rfl, h.1, h.2.1.trans rfl⟩

/-- Claim C19, evaluated on the code. On a handle that owns its resource, when
the local-address query (`getsockname`) fails with the code `e`, the exception
`sysErr(e)` thrown by `localAddress()` leaves the destructor: the release raises
a condition, after one call, without shutdown and without close. -/
theorem destroy_raises (A : address_hpp) (s : socket) (e : Int) (h : s.m_validFD = true) :
    socket.destroy A s (.error e) = (.error e, [oscall.getsockname s.m_sockFD]) := by
  simp [socket.destroy, h]

/-- Claim C19 on the code, at a handle that owns descriptor 3 and a query that
fails with the code 105. -/
theorem destroy_raises_witness :
    example_socket.m_validFD = true ∧
    socket.destroy example_address_hpp example_socket (.error 105)
      = (.error 105, [oscall.getsockname 3]) :=
  ⟨rfl, destroy_raises example_address_hpp example_socket 105 rfl⟩

/-- Claim C20, evaluated on the code. On a handle that owns its resource, when
the local-address query succeeds, the release shuts down both directions, then
closes the resource, and then removes a path exactly when the family is local
and the local address is a named one, the path being that name; on a handle
that does not own its resource, as after `socketFD(true)`, the destruction
issues no call. When the local-address query fails, the release of an owned
resource stops at that query: neither shutdown nor close is issued. -/
theorem release_sequence (A : address_hpp) (s : socket) :
    (s.m_validFD = true → ∀ loc : sockaddr_storage × Nat,
      socket.destroy A s (.ok loc)
        = (.ok (),
            [oscall.getsockname s.m_sockFD, oscall.shutdown s.m_sockFD SHUT_RDWR,
              oscall.close s.m_sockFD] ++
            (if s.m_domain = unix ∧ A.named loc.1 loc.2 = true
              then [oscall.unlink (c_str (A.name loc.1 loc.2))] else []))) ∧
    (∀ os : Except Int (sockaddr_storage × Nat),
      (socket.socketFD s true).1 = s.m_sockFD ∧
      socket.destroy A (socket.socketFD s true).2 os = (.ok (), [])) ∧
    (s.m_validFD = false → ∀ os : Except Int (sockaddr_storage × Nat),
      socket.destroy A s os = (.ok (), [])) ∧
    (s.m_validFD = true → ∀ e : Int,
      socket.destroy A s (.error e) = (.error e, [oscall.getsockname s.m_sockFD])) := by
  refine ⟨fun h loc => ?_, fun os => ⟨rfl, rfl⟩, fun h os => ?_, fun h e => ?_⟩
  · simp only [socket.destroy, h, if_true]
    by_cases hd : s.m_domain = unix
    · by_cases hn : A.named loc.1 loc.2 = true
      · simp [hd, hn]
      · simp [hd, hn]
    · simp [hd]
  · simp [socket.destroy, h]
  · simp [socket.destroy, h]

set_option maxRecDepth 8192 in
/-- Claim C20 on the code, at a local handle that owns descriptor 5 and is
bound to /tmp/example.sock, at an ipv4 handle, and at an owned handle whose
local-address query fails. -/
theorem release_sequence_witness :
    (example_socket_unix.m_validFD = true ∧ example_socket.m_validFD = true) ∧
    socket.destroy example_address_hpp example_socket_unix (.ok (example_native_path, 110))
      = (.ok (), [oscall.getsockname 5, oscall.shutdown 5 SHUT_RDWR, oscall.close 5,
          oscall.unlink (ascii "/tmp/example.sock")]) ∧
    socket.destroy example_address_hpp example_socket (.ok (example_any4, 16))
      = (.ok (), [oscall.getsockname 3, oscall.shutdown 3 SHUT_RDWR, oscall.close 3]) ∧
    socket.destroy example_address_hpp example_socket (.error 9)
      = (.error 9, [oscall.getsockname 3]) := by
  have hu := (release_sequence example_address_hpp example_socket_unix).1 rfl
    (example_native_path, 110)
  have h4 := (release_sequence example_address_hpp example_socket).1 rfl (example_any4, 16)
  have hf := (release_sequence example_address_hpp example_socket).2.2.2 rfl 9
  exact ⟨⟨rfl, rfl⟩, hu.trans rfl, h4.trans rfl, hf⟩

/-! ## Multi-socket readiness -/

theorem tail_getD (revents : List Nat) (i : Nat) :
    revents.tail.getD i 0 = revents.getD (i + 1) 0 := by
  cases revents <;> rfl

theorem headD_getD (revents : List Nat) : revents.headD 0 = revents.getD 0 0 := by
  cases revents <;> rfl

theorem select_ready_sublist (flag : Nat) (sockets : List socket) (revents : List Nat) :
    (select_ready flag sockets revents).Sublist sockets := by
  induction sockets generalizing revents with
  | nil => exact List.Sublist.slnil
  | cons a rest ih =>
    simp only [select_ready]
    split
    · exact List.Sublist.cons₂ _ (ih _)
    · exact List.Sublist.cons _ (ih _)

theorem select_ready_mem (flag : Nat) (sockets : List socket) (revents : List Nat) (x : socket) :
    x ∈ select_ready flag sockets revents ↔
      ∃ i : Nat, sockets[i]? = some x ∧ revents.getD i 0 &&& flag = flag := by
  induction sockets generalizing revents with
  | nil => simp [select_ready]
  | cons a rest ih =>
    have hrest : x ∈ select_ready flag rest revents.tail ↔
        ∃ i : Nat, rest[i]? = some x ∧ revents.getD (i + 1) 0 &&& flag = flag := by
      rw [ih revents.tail]
      simp only [tail_getD]
    constructor
    · intro hx
      simp only [select_ready] at hx
      split at hx
      · rename_i hready
        rcases List.mem_cons.1 hx with h | h
        · exact ⟨0, by simp [h], by rw [← headD_getD]; exact hready⟩
        · obtain ⟨i, h1, h2⟩ := hrest.1 h
          exact ⟨i + 1, by simpa using h1, h2⟩
      · obtain ⟨i, h1, h2⟩ := hrest.1 hx
        exact ⟨i + 1, by simpa using h1, h2⟩
    · rintro ⟨i, h1, h2⟩
      simp only [select_ready]
      cases i with
      | zero =>
        have ha : a = x := by simpa using h1
        rw [headD_getD, if_pos h2, ha]
        exact List.mem_cons_self _ _
      | succ j =>
        have hj : x ∈ select_ready flag rest revents.tail :=
          hrest.2 ⟨j, by simpa using h1, h2⟩
        split
        · exact List.mem_cons_of_mem _ hj
        · exact hj

theorem to_int_of_range (x : Int) (h1 : -2147483648 ≤ x) (h2 : x < 2147483648) :
    to_int x = x := by
  simp only [to_int]
  omega

/-- Claim C21. Multi-socket readiness: `writeReadySockets` and
`readReadySockets` issue exactly one multiplexing call, over the descriptors of
all the sockets given, with the timeout given converted to the `int` of `poll`
(the timeout itself when it is in the range of `int`); when that call fails the
query fails with the os-reported condition; otherwise the result holds exactly
the input sockets whose returned events include the flag asked for (write-ready
resp. read-ready): it is a sub-collection of the input, in its order, a socket
that is not ready is absent, and no socket is added. -/
theorem ready_sockets_spec (sockets : List socket) (timeout : Int) :
    (∀ os : Except Int (List Nat),
      (writeReadySockets sockets timeout os).2
        = [oscall.poll (sockets.map (fun s => (s.m_sockFD, POLLOUT))) (to_int timeout)] ∧
      (readReadySockets sockets timeout os).2
        = [oscall.poll (sockets.map (fun s => (s.m_sockFD, POLLIN))) (to_int timeout)]) ∧
    (-2147483648 ≤ timeout → timeout < 2147483648 → to_int timeout = timeout) ∧
    (∀ e : Int,
      (writeReadySockets sockets timeout (.error e)).1 = .error e ∧
      (readReadySockets sockets timeout (.error e)).1 = .error e) ∧
    (∀ revents : List Nat,
      ∃ w r : List socket,
        (writeReadySockets sockets timeout (.ok revents)).1 = .ok w ∧
        (readReadySockets sockets timeout (.ok revents)).1 = .ok r ∧
        w.Sublist sockets ∧ r.Sublist sockets ∧
        (∀ x : socket, x ∈ w ↔
          ∃ i : Nat, sockets[i]? = some x ∧ revents.getD i 0 &&& POLLOUT = POLLOUT) ∧
        (∀ x : socket, x ∈ r ↔
          ∃ i : Nat, sockets[i]? = some x ∧ revents.getD i 0 &&& POLLIN = POLLIN)) := by
  refine ⟨fun os => ?_, to_int_of_range timeout, fun e => ⟨rfl, rfl⟩, fun revents => ?_⟩
  · cases os <;> exact ⟨rfl, rfl⟩
  · exact ⟨_, _, rfl, rfl, select_ready_sublist _ _ _, select_ready_sublist _ _ _,
      fun x => select_ready_mem _ _ _ x, fun x => select_ready_mem _ _ _ x⟩

/-- Claim C21 at three sockets of which the first is readable and writable,
the second writable and the third neither, with a timeout of 100 ms; and at a
timeout of 2^32 + 50 ms, which reaches `poll` as 50. -/
theorem ready_sockets_spec_witness :
    (writeReadySockets example_sockets 100 (.ok [5, 4, 0])).1
      = .ok [example_socket, example_socket_other] ∧
    (readReadySockets example_sockets 100 (.ok [5, 4, 0])).1 = .ok [example_socket] ∧
    (readReadySockets example_sockets 100 (.error 4)).1 = .error 4 ∧
    (readReadySockets example_sockets 100 (.ok [5, 4, 0])).2
      = [oscall.poll [(3, 1), (4, 1), (5, 1)] 100] ∧
    (readReadySockets example_sockets 4294967346 (.ok [5, 4, 0])).2
      = [oscall.poll [(3, 1), (4, 1), (5, 1)] 50] ∧
    (readReadySockets example_sockets 2147483648 (.ok [5, 4, 0])).2
      = [oscall.poll [(3, 1), (4, 1), (5, 1)] (-2147483648)] :=
  ⟨rfl, rfl, ((ready_sockets_spec example_sockets 100).2.2.1 4).2,
    ((ready_sockets_spec example_sockets 100).1 (.ok [5, 4, 0])).2.trans (by decide),
    ((ready_sockets_spec example_sockets 4294967346).1 (.ok [5, 4, 0])).2.trans (by decide),
    ((ready_sockets_spec example_sockets 2147483648).1 (.ok [5, 4, 0])).2.trans (by decide)⟩

/-! ## The message of a condition with code 0 -/

/-- Claim C22 as stated fails. With a C library whose text for the code 0 is
"Success", `errorstr` gives "Success", not the empty message, for the
conditions of code 0 of the three categories. -/
theorem errorstr_zero_counterexample :
    errorstr example_hpp example_strerror { type := errortype.BSD, erno := 0 }
      = ascii "Success" ∧
    errorstr example_hpp example_strerror { type := errortype.CLASS, erno := 0 }
      = ascii "Success" ∧
    errorstr example_hpp example_strerror { type := errortype.USER, erno := 0 }
      = ascii "Success" ∧
    errorstr example_hpp example_strerror { type := errortype.CLASS, erno := 0 } ≠ [] := by
  decide

/-- Claim C22, amended. For every condition whose code is 0, of any category,
`errorstr(serror)` returns what `errorstr(0)` returns: the text the system's
error lookup gives for the code 0. It is the empty message exactly when that
text is empty. -/
theorem errorstr_zero (H : socks_hpp) (strerror : Int → Bytes) (e : serror) (h : e.erno = 0) :
    errorstr H strerror e = errorstr_int strerror 0 ∧
    (errorstr H strerror e = [] ↔ c_str (strerror 0) = []) := by
  have h1 : errorstr H strerror e = errorstr_int strerror 0 := by
    simp [errorstr, h]
  exact ⟨h1, by rw [h1]; rfl⟩

/-- Claim C22, amended, at the library-defined condition of code 0. -/
theorem errorstr_zero_witness :
    ({ type := errortype.CLASS, erno := 0 } : serror).erno = 0 ∧
    errorstr example_hpp example_strerror { type := errortype.CLASS, erno := 0 }
      = errorstr_int example_strerror 0 :=
  ⟨rfl, (errorstr_zero example_hpp example_strerror { type := errortype.CLASS, erno := 0 } rfl).1⟩

/-! ## Byte-exact transfer -/

theorem received_into (dst rx : Bytes) :
    resize (memcpy dst 0 rx rx.length) rx.length = rx := by
  simp only [resize, memcpy, List.take_zero, List.nil_append, List.take_length, Nat.zero_add,
    List.append_assoc]
  exact List.take_left' rfl

theorem send_takes (fd : Int) (data : Bytes) (flags : Nat) (sent : Nat) (counts : List Nat)
    (rest : List (Except Int Nat)) (h : sent + counts.sum = data.length) :
    (socket.send_loop data.length (fun off n => oscall.send fd (data.drop off) n flags) sent
      (counts.map Except.ok ++ rest)).outcome = some (.ok ()) ∧
    accepted (socket.send_loop data.length (fun off n => oscall.send fd (data.drop off) n flags)
      sent (counts.map Except.ok ++ rest)).calls (counts.map Except.ok ++ rest)
      = data.drop sent := by
  induction counts generalizing sent with
  | nil =>
    have hs : ¬ sent < data.length := by simp at h; omega
    have hd : data.drop sent = [] := List.drop_of_length_le (by omega)
    cases rest with
    | nil => simp [socket.send_loop, hs, accepted, hd]
    | cons x xs => simp [socket.send_loop, hs, accepted, hd]
  | cons c cs ih =>
    simp only [List.sum_cons] at h
    by_cases hs : sent < data.length
    · obtain ⟨h1, h2⟩ := ih (sent + c) (by omega)
      simp only [List.map_cons, List.cons_append, socket.send_loop, hs, if_true, accepted]
      refine ⟨h1, ?_⟩
      exact (congrArg (fun t => List.take c (List.drop sent data) ++ t) h2).trans
        (by rw [← List.drop_drop, List.take_append_drop])
    · have hd : data.drop sent = [] := List.drop_of_length_le (by omega)
      simp [socket.send_loop, hs, accepted, hd]

/-- Claim C23. Byte-exact transfer: when the system takes the payload over the
successive send calls (in chunks of any sizes `counts` that add up to the
payload length), `socket::send` returns, and the bytes the system took are the
payload, in order; and when the transport hands exactly those bytes to the
peer's one receive call, with a capacity that is at least the payload length,
`socket::receive` returns a byte vector equal to the payload, of the same
length. This holds for any two handles, hence in both directions. -/
theorem byte_exact_transfer (a b : socket) (p : Bytes) (flags rflags bufSize : Nat)
    (counts : List Nat) (rest : List (Except Int Nat))
    (hsum : counts.sum = p.length) (hcap : p.length ≤ bufSize) :
    (socket.send a p flags (counts.map Except.ok ++ rest)).outcome = some (.ok ()) ∧
    accepted (socket.send a p flags (counts.map Except.ok ++ rest)).calls
      (counts.map Except.ok ++ rest) = p ∧
    (socket.receive b bufSize rflags
      (.ok (accepted (socket.send a p flags (counts.map Except.ok ++ rest)).calls
        (counts.map Except.ok ++ rest)))).1 = .ok p ∧
    (socket.receive b bufSize rflags
      (.ok (accepted (socket.send a p flags (counts.map Except.ok ++ rest)).calls
        (counts.map Except.ok ++ rest)))).2
      = [oscall.recv b.m_sockFD bufSize (rflags ||| MSG_NOSIGNAL)] := by
  obtain ⟨hret, hacc0⟩ :=
    send_takes a.m_sockFD p (flags ||| MSG_NOSIGNAL) 0 counts rest (by omega)
  have hacc : accepted (socket.send a p flags (counts.map Except.ok ++ rest)).calls
      (counts.map Except.ok ++ rest) = p := by
    simpa [socket.send] using hacc0
  refine ⟨hret, hacc, ?_, rfl⟩
  rw [hacc]
  simp only [socket.receive, Except.ok.injEq]
  rw [List.take_of_length_le hcap, received_into]

/-- Claim C23 at the two messages of the test `SocketsCanCommunicate`, the
first taken by the system in one call, the second in two, with a capacity of
1024 bytes. -/
theorem byte_exact_transfer_witness :
    (([28] : List Nat).sum = example_hosts_message.length ∧
      example_hosts_message.length ≤ 1024) ∧
    (socket.send example_socket example_hosts_message 0 [.ok 28]).outcome = some (.ok ()) ∧
    (socket.receive example_socket_other 1024 0
      (.ok (accepted (socket.send example_socket example_hosts_message 0 [.ok 28]).calls
        [.ok 28]))).1 = .ok (ascii "You have reached the server.") ∧
    (socket.send example_socket_other example_clients_message 0 [.ok 10, .ok 20]).outcome
      = some (.ok ()) ∧
    (socket.receive example_socket 1024 0
      (.ok (accepted (socket.send example_socket_other example_clients_message 0
        [.ok 10, .ok 20]).calls [.ok 10, .ok 20]))).1
      = .ok (ascii "Hey server, just saying hello!") := by
  have h1 := byte_exact_transfer example_socket example_socket_other example_hosts_message 0 0
    1024 [28] [] (by decide) (by decide)
  have h2 := byte_exact_transfer example_socket_other example_socket example_clients_message 0 0
    1024 [10, 20] [] (by decide) (by decide)
  exact ⟨⟨by decide, by decide⟩, h1.1, h1.2.2.1, h2.1, h2.2.2.1⟩

/-! ## Options of a `socket_base` -/

/-- Claim C24, evaluated on the code. `setoption` and `getoption` issue their
system call on the descriptor 0, whatever descriptor the handle owns: a handle
that owns descriptor 3 sets and reads the options of descriptor 0, and two
handles that own different descriptors issue the same call. -/
theorem option_calls_descriptor_zero (s s2 : socket_base) (o value level os : Int)
    (osg : Int × Int) :
    (socket_base.setoption s o value level os).2.2 = [oscall.setsockopt 0 level o value] ∧
    (socket_base.getoption s o level osg).2.2.2 = [oscall.getsockopt 0 level o] ∧
    (socket_base.setoption s o value level os).2.2
      = (socket_base.setoption s2 o value level os).2.2 ∧
    (socket_base.getoption s o level osg).2.2.2 = (socket_base.getoption s2 o level osg).2.2.2 ∧
    example_handle4.m_sockid = 3 ∧
    (socket_base.setoption example_handle4 o value level os).2.2
      ≠ [oscall.setsockopt example_handle4.m_sockid level o value] ∧
    (socket_base.getoption example_handle4 o level osg).2.2.2
      ≠ [oscall.getsockopt example_handle4.m_sockid level o] := by
  refine ⟨rfl, rfl, rfl, rfl, rfl, ?_, ?_⟩
  · intro h
    simp only [socket_base.setoption, List.cons.injEq, oscall.setsockopt.injEq] at h
    exact absurd h.1.1 (by decide)
  · intro h
    simp only [socket_base.getoption, List.cons.injEq, oscall.getsockopt.injEq] at h
    exact absurd h.1.1 (by decide)

/-! ## Termination of the send loop -/

theorem send_loop_terminates (len : Nat) (call : Nat → Nat → oscall) (sent : Nat)
    (answers : List (Except Int Nat)) (hs : sent ≤ len)
    (hp : send_progress len sent answers = true) :
    (socket.send_loop len call sent answers).calls.length ≤ len - sent ∧
    (socket.send_loop len call sent answers).sent ≤ len ∧
    (len - sent ≤ answers.length → (socket.send_loop len call sent answers).outcome ≠ none) := by
  induction answers generalizing sent with
  | nil =>
    simp only [socket.send_loop]
    split
    · exact ⟨Nat.zero_le _, hs, fun h => by simp at h; omega⟩
    · exact ⟨Nat.zero_le _, hs, fun _ => by simp⟩
  | cons a rest ih =>
    simp only [socket.send_loop]
    by_cases h : sent < len
    · simp only [h, if_true]
      cases a with
      | error e => exact ⟨by simp; omega, hs, fun _ => by simp⟩
      | ok r =>
        simp only [send_progress, h, if_true, Bool.and_eq_true, decide_eq_true_eq] at hp
        obtain ⟨h1, h2, h3⟩ := ih (sent + r) (by omega) hp.2
        refine ⟨by simp only [List.length_cons]; omega, h2, fun hl => h3 ?_⟩
        simp only [List.length_cons] at hl
        omega
    · simp only [h, if_false]
      exact ⟨Nat.zero_le _, hs, fun _ => by simp⟩

theorem send_loop_totals (len : Nat) (call : Nat → Nat → oscall) (sent : Nat)
    (answers : List (Except Int Nat)) (hs : sent ≤ len)
    (hp : send_progress len sent answers = true) (i : Nat)
    (hi : i ≤ (socket.send_loop len call sent answers).calls.length) :
    sent + oksum (answers.take i) ≤ len := by
  induction answers generalizing sent i with
  | nil => simpa [oksum] using hs
  | cons a rest ih =>
    cases i with
    | zero => simpa [oksum] using hs
    | succ j =>
      simp only [socket.send_loop] at hi
      by_cases h : sent < len
      · simp only [h, if_true] at hi
        cases a with
        | error e =>
          simp only [List.length_cons, List.length_nil] at hi
          have hj : j = 0 := by omega
          subst hj
          simpa [oksum] using hs
        | ok r =>
          simp only [send_progress, h, if_true, Bool.and_eq_true, decide_eq_true_eq] at hp
          simp only [List.length_cons] at hi
          have := ih (sent + r) (by omega) hp.2 j (by omega)
          simp only [List.take_succ_cons, oksum]
          omega
      · simp only [h, if_false, List.length_nil] at hi
        omega

theorem send_loop_empty (call : Nat → Nat → oscall) (answers : List (Except Int Nat)) :
    (socket.send_loop 0 call 0 answers).calls = [] ∧
    (socket.send_loop 0 call 0 answers).outcome = some (.ok ()) := by
  cases answers <;> exact ⟨rfl, rfl⟩

/-- Claim C25. Termination of the send loop, in both overloads of
`socket::send`: provided every system call reports a failure or a count between
1 and the length it was given, the loop issues at most `len` calls and, with
that many answers at hand, ends (it returns or throws); the running total of
the counts never exceeds `len`; and for an empty payload no call is issued at
all. -/
theorem send_terminates (s : socket) (data : Bytes) (flags : Nat) (toAddr : sockaddr_storage)
    (addrLen : Nat) (answers : List (Except Int Nat)) :
    (send_progress data.length 0 answers = true →
      ((socket.send s data flags answers).calls.length ≤ data.length ∧
        (socket.send s data flags answers).sent ≤ data.length ∧
        (data.length ≤ answers.length → (socket.send s data flags answers).outcome ≠ none) ∧
        (∀ i, i ≤ (socket.send s data flags answers).calls.length →
          oksum (answers.take i) ≤ data.length)) ∧
      ((socket.send_to s data toAddr addrLen flags answers).calls.length ≤ data.length ∧
        (socket.send_to s data toAddr addrLen flags answers).sent ≤ data.length ∧
        (data.length ≤ answers.length →
          (socket.send_to s data toAddr addrLen flags answers).outcome ≠ none) ∧
        (∀ i, i ≤ (socket.send_to s data toAddr addrLen flags answers).calls.length →
          oksum (answers.take i) ≤ data.length))) ∧
    ((socket.send s [] flags answers).calls = [] ∧
      (socket.send s [] flags answers).outcome = some (.ok ()) ∧
      (socket.send_to s [] toAddr addrLen flags answers).calls = [] ∧
      (socket.send_to s [] toAddr addrLen flags answers).outcome = some (.ok ())) := by
  refine ⟨fun hp => ⟨?_, ?_⟩, ?_⟩
  · obtain ⟨h1, h2, h3⟩ := send_loop_terminates data.length
      (fun off n => oscall.send s.m_sockFD (data.drop off) n (flags ||| MSG_NOSIGNAL)) 0 answers
      (Nat.zero_le _) hp
    refine ⟨h1, h2, h3, fun i hi => ?_⟩
    have := send_loop_totals data.length _ 0 answers (Nat.zero_le _) hp i hi
    omega
  · obtain ⟨h1, h2, h3⟩ := send_loop_terminates data.length
      (fun off n => oscall.sendto s.m_sockFD (data.drop off) n (flags ||| MSG_NOSIGNAL)
        (some toAddr) addrLen) 0 answers (Nat.zero_le _) hp
    refine ⟨h1, h2, h3, fun i hi => ?_⟩
    have := send_loop_totals data.length _ 0 answers (Nat.zero_le _) hp i hi
    omega
  · have e1 := send_loop_empty
      (fun off n => oscall.send s.m_sockFD (([] : Bytes).drop off) n (flags ||| MSG_NOSIGNAL))
      answers
    have e2 := send_loop_empty
      (fun off n => oscall.sendto s.m_sockFD (([] : Bytes).drop off) n (flags ||| MSG_NOSIGNAL)
        (some toAddr) addrLen) answers
    exact ⟨e1.1, e1.2, e2.1, e2.2⟩

/-- Claim C25 at a payload of ten bytes and a system that takes one byte with
every call: ten calls, after which the loop has returned; and at the empty
payload, where no call is issued. -/
theorem send_terminates_witness :
    send_progress example_payload.length 0 example_one_by_one = true ∧
    (socket.send example_socket example_payload 0 example_one_by_one).calls.length = 10 ∧
    (socket.send example_socket example_payload 0 example_one_by_one).outcome ≠ none ∧
    (socket.send example_socket [] 0 example_one_by_one).calls = [] := by
  have h := send_terminates example_socket example_payload 0 example_any4 16 example_one_by_one
  have he := send_terminates example_socket [] 0 example_any4 16 example_one_by_one
  exact ⟨rfl, rfl, (h.1 rfl).1.2.2.1 (by decide), he.2.1⟩

end sks
